import Mathlib

/-
Verification development for the doctify-site-mirror extraction and
validation pipeline (src/pipelines/extract.py and src/pipelines/validate.py).

The Python code is shallowly embedded: Python runtime values are modelled by
the inductive type `Value`, dictionaries by association lists with
insertion-order update semantics (matching CPython dicts), exceptions by
`Except Unit`, and the BeautifulSoup document interface by records of query
functions (the DOM library is an external collaborator of the code under
verification, exactly as the `re` regex engine is, which is modelled by a
record of match functions).

Numeric modelling notes: Python floats are modelled as exact rationals plus
infinities and nan (`PyFloat`); binary rounding of decimal literals is not
modelled, and the decimal-parse overflow threshold is approximated by 2^1024.
Unicode notes: `str.lower` and NFKD folding are modelled for ASCII input
(ASCII is what the pipeline feeds them); non-ASCII characters are dropped by
the slugify fold, matching encode-ascii-ignore for ASCII-only input.
-/

set_option maxRecDepth 10000
set_option exponentiation.threshold 2048

namespace Doctify

/-- An exact rational as an unnormalised numerator/denominator pair (the
denominator is always positive by construction).  Normalisation is avoided
so that every operation is free of gcd computations and reduces inside the
kernel; equality and comparisons cross-multiply. -/
structure PyRat where
  num : ℤ
  den : ℕ
deriving DecidableEq, Repr

/-- The rational value of a natural number. -/
def PyRat.ofNat (n : ℕ) : PyRat := ⟨n, 1⟩

/-- The rational value of an integer. -/
def PyRat.ofInt (n : ℤ) : PyRat := ⟨n, 1⟩

/-- Cross-multiplied equality of rationals. -/
def PyRat.same (a b : PyRat) : Bool := a.num * b.den == b.num * a.den

/-- Python float values: exact finite rationals, the two infinities, and nan. -/
inductive PyFloat where
  | finite (q : PyRat)
  | inf
  | ninf
  | nan
deriving DecidableEq, Repr

/-- Python runtime values as they occur in the pipeline: None, bool, int,
float, str, list, dict, and datetime objects (produced by the date branch of
type coercion; carried as their ISO source string). -/
inductive Value where
  | vNull
  | vBool (b : Bool)
  | vInt (n : ℤ)
  | vFloat (f : PyFloat)
  | vStr (s : String)
  | vList (xs : List Value)
  | vObj (fields : List (String × Value))
  | vDatetime (iso : String)
deriving Repr

mutual

/-- Structural boolean equality on values (mutual with lists and field lists). -/
def Value.beq : Value → Value → Bool
  | .vNull, .vNull => true
  | .vBool a, .vBool b => a == b
  | .vInt a, .vInt b => a == b
  | .vFloat a, .vFloat b => a == b
  | .vStr a, .vStr b => a == b
  | .vList a, .vList b => Value.beqList a b
  | .vObj a, .vObj b => Value.beqFields a b
  | .vDatetime a, .vDatetime b => a == b
  | _, _ => false

/-- Structural boolean equality on lists of values. -/
def Value.beqList : List Value → List Value → Bool
  | [], [] => true
  | a :: as, b :: bs => Value.beq a b && Value.beqList as bs
  | _, _ => false

/-- Structural boolean equality on association lists of values. -/
def Value.beqFields : List (String × Value) → List (String × Value) → Bool
  | [], [] => true
  | (k, v) :: as, (k2, v2) :: bs => k == k2 && Value.beq v v2 && Value.beqFields as bs
  | _, _ => false

end

mutual

theorem Value.eq_of_beq : ∀ (a b : Value), Value.beq a b = true → a = b
  | .vNull, b, h => by cases b <;> simp_all [Value.beq]
  | .vBool _, b, h => by cases b <;> simp_all [Value.beq]
  | .vInt _, b, h => by cases b <;> simp_all [Value.beq]
  | .vFloat _, b, h => by cases b <;> simp_all [Value.beq]
  | .vStr _, b, h => by cases b <;> simp_all [Value.beq]
  | .vList xs, b, h => by
      cases b <;> simp_all [Value.beq]
      exact Value.eqList_of_beqList xs _ h
  | .vObj fs, b, h => by
      cases b <;> simp_all [Value.beq]
      exact Value.eqFields_of_beqFields fs _ h
  | .vDatetime _, b, h => by cases b <;> simp_all [Value.beq]

theorem Value.eqList_of_beqList : ∀ (as bs : List Value), Value.beqList as bs = true → as = bs
  | [], [], _ => rfl
  | [], _ :: _, h => by simp [Value.beqList] at h
  | _ :: _, [], h => by simp [Value.beqList] at h
  | a :: as, b :: bs, h => by
      simp only [Value.beqList, Bool.and_eq_true] at h
      rw [Value.eq_of_beq a b h.1, Value.eqList_of_beqList as bs h.2]

theorem Value.eqFields_of_beqFields :
    ∀ (as bs : List (String × Value)), Value.beqFields as bs = true → as = bs
  | [], [], _ => rfl
  | [], _ :: _, h => by simp [Value.beqFields] at h
  | _ :: _, [], h => by simp [Value.beqFields] at h
  | (k, v) :: as, (k2, v2) :: bs, h => by
      simp only [Value.beqFields, Bool.and_eq_true, beq_iff_eq] at h
      rw [h.1.1, Value.eq_of_beq v v2 h.1.2, Value.eqFields_of_beqFields as bs h.2]

end

mutual

theorem Value.beq_refl : ∀ (a : Value), Value.beq a a = true
  | .vNull => rfl
  | .vBool _ => by simp [Value.beq]
  | .vInt _ => by simp [Value.beq]
  | .vFloat _ => by simp [Value.beq]
  | .vStr _ => by simp [Value.beq]
  | .vList xs => by simp [Value.beq]; exact Value.beqList_refl xs
  | .vObj fs => by simp [Value.beq]; exact Value.beqFields_refl fs
  | .vDatetime _ => by simp [Value.beq]

theorem Value.beqList_refl : ∀ (as : List Value), Value.beqList as as = true
  | [] => rfl
  | a :: as => by
      simp only [Value.beqList, Bool.and_eq_true]
      exact ⟨Value.beq_refl a, Value.beqList_refl as⟩

theorem Value.beqFields_refl : ∀ (as : List (String × Value)), Value.beqFields as as = true
  | [] => rfl
  | (k, v) :: as => by
      simp only [Value.beqFields, Bool.and_eq_true, beq_self_eq_true, true_and]
      exact ⟨Value.beq_refl v, Value.beqFields_refl as⟩

end

instance : BEq Value := ⟨Value.beq⟩

theorem Value.beq_iff_eq_value (a b : Value) : Value.beq a b = true ↔ a = b :=
  ⟨Value.eq_of_beq a b, fun h => h ▸ Value.beq_refl a⟩

instance : DecidableEq Value := fun a b =>
  decidable_of_iff (Value.beq a b = true) (Value.beq_iff_eq_value a b)

/-- Python truthiness (`bool(value)`). -/
def pyTruthy : Value → Bool
  | .vNull => false
  | .vBool b => b
  | .vInt n => n != 0
  | .vFloat (.finite q) => q.num != 0
  | .vFloat _ => true
  | .vStr s => s != ""
  | .vList xs => !xs.isEmpty
  | .vObj fs => !fs.isEmpty
  | .vDatetime _ => true

/-- Numeric view used by Python cross-type equality: bools and ints are
numbers. -/
def numOf : Value → Option PyFloat
  | .vBool b => some (.finite (.ofNat (if b then 1 else 0)))
  | .vInt n => some (.finite (.ofInt n))
  | .vFloat f => some f
  | _ => none

/-- Equality of Python floats: nan compares unequal to everything, including
itself. -/
def pyFloatEq : PyFloat → PyFloat → Bool
  | .finite a, .finite b => a.same b
  | .inf, .inf => true
  | .ninf, .ninf => true
  | _, _ => false

/-- Lookup in an association list (used by dict equality below and by the
dict operations further down). -/
def assocLookup : List (String × Value) → String → Option Value
  | [], _ => none
  | (k, v) :: rest, key => if k == key then some v else assocLookup rest key

mutual

/-- Python `==`: numeric values compare across bool/int/float; sequences and
dicts compare elementwise; other cross-type comparisons are false. -/
def pyEq : Value → Value → Bool
  | .vNull, .vNull => true
  | .vStr a, .vStr b => a == b
  | .vDatetime a, .vDatetime b => a == b
  | .vList a, .vList b => pyEqList a b
  | .vObj a, .vObj b =>
      a.length == b.length && pyEqFieldsSub a b
  | a, b =>
      match numOf a, numOf b with
      | some x, some y => pyFloatEq x y
      | _, _ => false

/-- Python `==` on lists, elementwise. -/
def pyEqList : List Value → List Value → Bool
  | [], [] => true
  | a :: as, b :: bs => pyEq a b && pyEqList as bs
  | _, _ => false

/-- Every entry of the first dict is present with an equal value in the
second (with unique keys and equal lengths this is dict equality). -/
def pyEqFieldsSub : List (String × Value) → List (String × Value) → Bool
  | [], _ => true
  | (k, v) :: rest, b =>
      (match assocLookup b k with
       | some w => pyEq v w
       | none => false) && pyEqFieldsSub rest b

end

/-- Python hashability: lists and dicts are unhashable (membership tests on
sets and dict keys raise TypeError for them). -/
def pyHashable : Value → Bool
  | .vList _ => false
  | .vObj _ => false
  | _ => true

/-- Membership of a value in a Python list/set, via Python `==` (for sets the
caller must have checked hashability). -/
def pyMem (v : Value) (xs : List Value) : Bool := xs.any (fun x => pyEq v x)

/-- Rendering of a Python float by `str()`; approximate for finite
non-integral values (not reached by the pipeline paths under study). -/
def pyFloatStr : PyFloat → String
  | .finite q =>
      if q.den == 1 then toString q.num ++ ".0"
      else toString q.num ++ "/" ++ toString q.den
  | .inf => "inf"
  | .ninf => "-inf"
  | .nan => "nan"

/-- Python `str(value)`. The repr of lists and dicts is not modelled in
detail (placeholder text); those cases are not reached by the paths the
claims concern. -/
def pyStrOf : Value → String
  | .vNull => "None"
  | .vBool true => "True"
  | .vBool false => "False"
  | .vInt n => toString n
  | .vFloat f => pyFloatStr f
  | .vStr s => s
  | .vDatetime s => s
  | .vList _ => "<list-repr>"
  | .vObj _ => "<dict-repr>"

/-- A Python dict with string keys, as an insertion-ordered association list
with unique keys (the only dicts built by the pipeline). -/
abbrev PyDict := List (String × Value)

/-- Python `d[k]` / `k in d` lookup. -/
def dictGet (d : PyDict) (key : String) : Option Value := assocLookup d key

/-- Python `d.get(k, default)`. -/
def dictGetD (d : PyDict) (key : String) (dflt : Value) : Value :=
  (dictGet d key).getD dflt

/-- Python `d[k] = v`: update in place, preserving position, else append. -/
def dictSet : PyDict → String → Value → PyDict
  | [], key, v => [(key, v)]
  | (k, w) :: rest, key, v =>
      if k == key then (k, v) :: rest else (k, w) :: dictSet rest key v

/-! ## String helpers mirroring the Python string operations used -/

/-- The characters Python `str.strip()` removes and `\s` matches (ASCII
whitespace; Unicode spaces are not modelled). -/
def pySpaceChar (c : Char) : Bool :=
  c == ' ' || c == '\t' || c == '\n' || c == '\r' || c == '\x0b' || c == '\x0c'

/-- Python `str.strip()`. -/
def pyStrip (s : String) : String :=
  String.mk (((s.data.dropWhile pySpaceChar).reverse.dropWhile pySpaceChar).reverse)

/-- One pass of whitespace-run collapsing over a character list; the flag
records whether the previous character was part of a whitespace run. -/
def collapseWsAux : Bool → List Char → List Char
  | _, [] => []
  | inRun, c :: rest =>
      if pySpaceChar c then
        (if inRun then [] else [' ']) ++ collapseWsAux true rest
      else c :: collapseWsAux false rest

/-- Python `re.sub(r"\s+", " ", s)`: every maximal whitespace run becomes one
space. -/
def collapseWs (s : String) : String := String.mk (collapseWsAux false s.data)

/-- The zero-width characters removed by text cleaning (U+200B..U+200D and
U+FEFF). -/
def zeroWidthChar (c : Char) : Bool :=
  c.toNat == 0x200b || c.toNat == 0x200c || c.toNat == 0x200d || c.toNat == 0xfeff

/-- Python `str.lower()`, ASCII-only (the inputs fed to it by the pipeline
are ASCII). -/
def pyLower (s : String) : String := String.mk (s.data.map Char.toLower)

/-- The substring before the first occurrence of `sep` (the whole string when
`sep` does not occur). -/
def beforeFirst (s sep : String) : String := ((s.splitOn sep).headD s)

/-- Python `sub in s` on strings (an empty needle is always contained). -/
def strContains (s sub : String) : Bool :=
  if sub == "" then true else (s.splitOn sub).length ≥ 2

/-- Python `s.replace(",", "")`. -/
def stripCommas (s : String) : String := String.join (s.splitOn ",")

/-! ## SHA-1 (hashlib.sha1), over UTF-8 bytes, with Nat arithmetic mod 2^32 -/

/-- UTF-8 encoding of one code point, as byte values. -/
def utf8EncodeChar (c : Char) : List Nat :=
  let n := c.toNat
  if n < 0x80 then [n]
  else if n < 0x800 then [0xC0 + n / 0x40, 0x80 + n % 0x40]
  else if n < 0x10000 then
    [0xE0 + n / 0x1000, 0x80 + (n / 0x40) % 0x40, 0x80 + n % 0x40]
  else
    [0xF0 + n / 0x40000, 0x80 + (n / 0x1000) % 0x40, 0x80 + (n / 0x40) % 0x40,
      0x80 + n % 0x40]

/-- Python `s.encode("utf-8")` as a byte list. -/
def utf8Bytes (s : String) : List Nat := (s.data.map utf8EncodeChar).flatten

/-- Truncation to 32 bits. -/
def w32 (n : Nat) : Nat := n % 4294967296

/-- 32-bit left rotation. -/
def rotl (n x : Nat) : Nat := w32 ((x <<< n) ||| (x >>> (32 - n)))

/-- SHA-1 padding: append 0x80, zero bytes to 56 mod 64, then the 64-bit
big-endian bit length. -/
def sha1Pad (msg : List Nat) : List Nat :=
  let len := msg.length
  let bitLen := 8 * len
  let padZeros := (119 - len % 64) % 64
  msg ++ [0x80] ++ List.replicate padZeros 0 ++
    (List.range 8).map (fun i => (bitLen >>> (8 * (7 - i))) % 256)

/-- Big-endian packing of bytes into 32-bit words. -/
def bytesToWords : List Nat → List Nat
  | b0 :: b1 :: b2 :: b3 :: rest =>
      ((b0 <<< 24) ||| (b1 <<< 16) ||| (b2 <<< 8) ||| b3) :: bytesToWords rest
  | _ => []

/-- The remaining 64 schedule words; `recent` holds the last 16 words,
newest first, so w[t-3], w[t-8], w[t-14], w[t-16] sit at offsets 2, 7, 13,
15. -/
def sha1ScheduleRest : Nat → List Nat → List Nat
  | 0, _ => []
  | fuel + 1, recent =>
      let t := rotl 1 (recent.getD 2 0 ^^^ recent.getD 7 0 ^^^
        recent.getD 13 0 ^^^ recent.getD 15 0)
      t :: sha1ScheduleRest fuel (t :: recent.take 15)

/-- The 80-entry SHA-1 message schedule from a 16-word block. -/
def sha1Schedule (ws : List Nat) : List Nat :=
  ws ++ sha1ScheduleRest 64 ws.reverse

/-- The SHA-1 round function. -/
def sha1F (t b c d : Nat) : Nat :=
  if t < 20 then (b &&& c) ||| ((b ^^^ 4294967295) &&& d)
  else if t < 40 then b ^^^ c ^^^ d
  else if t < 60 then (b &&& c) ||| (b &&& d) ||| (c &&& d)
  else b ^^^ c ^^^ d

/-- The SHA-1 round constants. -/
def sha1K (t : Nat) : Nat :=
  if t < 20 then 0x5A827999
  else if t < 40 then 0x6ED9EBA1
  else if t < 60 then 0x8F1BBCDC
  else 0xCA62C1D6

/-- Processing of one 64-byte block. -/
def sha1Block (h : Nat × Nat × Nat × Nat × Nat) (block : List Nat) :
    Nat × Nat × Nat × Nat × Nat :=
  let ws := sha1Schedule (bytesToWords block)
  let (h0, h1, h2, h3, h4) := h
  let st := ws.foldl
    (fun st w =>
      let ((a, b, c, d, e), t) := st
      ((w32 (rotl 5 a + sha1F t b c d + e + sha1K t + w), a, rotl 30 b, c, d), t + 1))
    ((h0, h1, h2, h3, h4), 0)
  let (a, b, c, d, e) := st.1
  (w32 (h0 + a), w32 (h1 + b), w32 (h2 + c), w32 (h3 + d), w32 (h4 + e))

/-- Splitting of a byte list into 64-byte chunks, with a structural fuel
argument bounding the number of chunks. -/
def chunks64Aux : Nat → List Nat → List (List Nat)
  | 0, _ => []
  | _, [] => []
  | fuel + 1, x :: rest => ((x :: rest).take 64) :: chunks64Aux fuel ((x :: rest).drop 64)

/-- Splitting of a byte list into 64-byte chunks. -/
def chunks64 (l : List Nat) : List (List Nat) := chunks64Aux l.length l

/-- A hex digit character (lowercase). -/
def hexDigit (n : Nat) : Char :=
  if n < 10 then Char.ofNat (48 + n) else Char.ofNat (87 + n)

/-- The eight hex digits of one 32-bit word, big-endian. -/
def wordHex (w : Nat) : List Char :=
  [hexDigit (w / 0x10000000 % 16), hexDigit (w / 0x1000000 % 16),
    hexDigit (w / 0x100000 % 16), hexDigit (w / 0x10000 % 16),
    hexDigit (w / 0x1000 % 16), hexDigit (w / 0x100 % 16),
    hexDigit (w / 0x10 % 16), hexDigit (w % 16)]

/-- Python `hashlib.sha1(s.encode("utf-8")).hexdigest()`. -/
def sha1hex (s : String) : String :=
  let (h0, h1, h2, h3, h4) := (chunks64 (sha1Pad (utf8Bytes s))).foldl sha1Block
    (0x67452301, 0xEFCDAB89, 0x98BADCFE, 0x10325476, 0xC3D2E1F0)
  String.mk (wordHex h0 ++ wordHex h1 ++ wordHex h2 ++ wordHex h3 ++ wordHex h4)

/-- The first 8 hex characters of the SHA-1 digest, `hexdigest()[:8]`. -/
def sha1hex8 (s : String) : String := (sha1hex s).take 8

/-! ## The DOM interface (BeautifulSoup is an external collaborator)

An `Element` is a parsed tag: its normalised-source text, serialisation,
attribute dict, parsed script payload, and subtree query functions (the
latter model `BeautifulSoup(str(container))` re-parsing for review
extraction, which the spec notes is selector-equivalent to subtree-rooted
queries). A `Soup` is the query interface of a parsed document. -/

/-- The `script.string` payload of a script element as seen by `json.loads`:
absent (`None`, making `json.loads` raise TypeError), unparseable, or a
parsed JSON value. -/
inductive ScriptData where
  | noScriptString
  | badJson
  | jsonVal (v : Value)

/-- A DOM element. -/
inductive Element where
  | mk (text : String) (html : String) (attrs : List (String × Value))
      (scriptData : ScriptData)
      (sub1 : String → Option Element)
      (subA : String → List Element)
      (subF : String → Option Element)

/-- The raw `get_text()` result. -/
def Element.text : Element → String
  | .mk t _ _ _ _ _ _ => t

/-- The `str(element)` serialisation. -/
def Element.html : Element → String
  | .mk _ h _ _ _ _ _ => h

/-- The attribute dict. -/
def Element.attrs : Element → List (String × Value)
  | .mk _ _ a _ _ _ _ => a

/-- The script payload. -/
def Element.scriptData : Element → ScriptData
  | .mk _ _ _ s _ _ _ => s

/-- Subtree `select_one`. -/
def Element.sub1 : Element → String → Option Element
  | .mk _ _ _ _ f _ _ => f

/-- Subtree `select`. -/
def Element.subA : Element → String → List Element
  | .mk _ _ _ _ _ f _ => f

/-- Subtree `find`. -/
def Element.subF : Element → String → Option Element
  | .mk _ _ _ _ _ _ f => f

/-- Python `element.get(name, default)`. -/
def Element.getAttrD (e : Element) (name : String) (dflt : Value) : Value :=
  (assocLookup e.attrs name).getD dflt

/-- The query interface of a parsed document. -/
structure Soup where
  selectOne : String → Option Element
  select : String → List Element
  findTag : String → Option Element

/-- Re-parsing a container element (`BeautifulSoup(str(container), "lxml")`)
modelled as the container-rooted query interface. -/
def elemSoup (e : Element) : Soup := ⟨e.sub1, e.subA, e.subF⟩

/-! ## The regex interface (the `re` module is an external collaborator) -/

/-- A regex match: the full matched text (`group(0)`) and the capture groups
(`group(i)` may be None when a group did not participate). -/
structure RMatch where
  group0 : String
  groups : List (Option String)

/-- A compiled regex, presented by its `re.search` and `re.match`
behaviours. -/
structure Regex where
  search : String → Option RMatch
  rmatch : String → Option RMatch

/-- Python `match.group(g)`; an out-of-range group raises IndexError. -/
def matchGroup (m : RMatch) : Nat → Except Unit (Option String)
  | 0 => .ok (some m.group0)
  | n + 1 =>
      match m.groups.get? n with
      | some g => .ok g
      | none => .error ()

/-! ## Field configuration (selectors.yaml entries) -/

/-- One entry of a `selectors` list: either a bare selector string or a dict
with optional selector / method / attribute keys. -/
inductive SelectorSpec where
  | plain (s : String)
  | conf (selector : Option String) (method : Option String) (attr : Option String)

/-- A field configuration from the selector schema, with the defaults the
code reads via `.get`. -/
structure FieldConfig where
  method : String := "text"
  selectors : List SelectorSpec := []
  fallback : Value := .vNull
  pattern : Option Regex := none
  type : String := "string"
  attr : Option String := none
  group : Nat := 0
  selector : Option String := none
  schema_types : List String := []

/-- Truthiness of an optional string (absent and empty are falsy). -/
def optTruthy : Option String → Bool
  | some s => s != ""
  | none => false

/-! ## DoctifyExtractor._clean_text -/

/-- `_clean_text`: strip, collapse whitespace runs, remove zero-width
characters. -/
def clean_text (text : String) : String :=
  if text == "" then ""
  else
    String.mk ((collapseWs (pyStrip text)).data.filter (fun c => !zeroWidthChar c))

/-! ## DoctifyExtractor._apply_pattern -/

mutual

/-- `_apply_pattern`: on a list, recurse over the truthy elements; on a
string, `re.search` and return group 1 if the pattern has groups else the
full match, or the string unchanged when there is no match; other values are
returned unchanged. -/
def applyPattern (p : Regex) : Value → Value
  | .vList xs => .vList (applyPatternList p xs)
  | .vStr s =>
      match p.search s with
      | some m =>
          if m.groups.isEmpty then .vStr m.group0
          else
            match m.groups.headD none with
            | some g => .vStr g
            | none => .vNull
      | none => .vStr s
  | v => v

/-- The list comprehension `[_apply_pattern(v, pattern) for v in value if v]`:
falsy elements are dropped before the pattern is applied. -/
def applyPatternList (p : Regex) : List Value → List Value
  | [] => []
  | v :: rest =>
      if pyTruthy v then applyPattern p v :: applyPatternList p rest
      else applyPatternList p rest

end

/-! ## Python float(str) parsing and DoctifyExtractor._convert_type -/

/-- The numeric value of a nonempty digit string. -/
def natVal (l : List Char) : Nat :=
  l.foldl (fun acc c => 10 * acc + (c.toNat - 48)) 0

/-- All characters are digits and there is at least one. -/
def isDigits (l : List Char) : Bool := !l.isEmpty && l.all Char.isDigit

/-- The mantissa grammar of a float literal: `digits`, `digits.`,
`digits.digits`, or `.digits` (numeric-literal underscores are not
modelled).  The value is `intpart.fracpart` as an exact unnormalised
rational. -/
def parseMantissa (l : List Char) : Option PyRat :=
  let ip := l.takeWhile Char.isDigit
  let rest := l.drop ip.length
  match rest with
  | [] => if ip.isEmpty then none else some (.ofNat (natVal ip))
  | '.' :: fp =>
      if fp.all Char.isDigit && (!ip.isEmpty || !fp.isEmpty) then
        some ⟨natVal ip * Nat.pow 10 fp.length + natVal fp, Nat.pow 10 fp.length⟩
      else none
  | _ => none

/-- The exponent grammar: an optional sign and a nonempty digit string. -/
def parseExp (l : List Char) : Option ℤ :=
  match l with
  | '+' :: d => if isDigits d then some (natVal d : ℤ) else none
  | '-' :: d => if isDigits d then some (-(natVal d : ℤ)) else none
  | d => if isDigits d then some (natVal d : ℤ) else none

/-- Splitting of a float literal at the first exponent marker. -/
def splitExpMark : List Char → List Char × Option (List Char)
  | [] => ([], none)
  | c :: rest =>
      if c == 'e' || c == 'E' then ([], some rest)
      else
        let (m, e) := splitExpMark rest
        (c :: m, e)

/-- The magnitude is at or above the IEEE double overflow threshold for
decimal-literal conversion, approximated as 2^1024 (literals at or above it
read as infinity).  Cross-multiplied; applied to non-negative rationals. -/
def atOverflow (q : PyRat) : Bool := q.num ≥ ((Nat.pow 2 1024 : ℕ) : ℤ) * q.den

/-- Python `float(s)`: strip, optional sign, then inf / nan names
(case-insensitive) or a decimal literal with optional exponent; literal
overflow gives infinity and extreme negative exponents give zero. -/
def pyFloatParse (s : String) : Option PyFloat :=
  let t := pyStrip s
  let (neg, u) :=
    match t.data with
    | '+' :: rest => (false, rest)
    | '-' :: rest => (true, rest)
    | l => (false, l)
  let low := String.mk (u.map Char.toLower)
  if low == "inf" || low == "infinity" then some (if neg then .ninf else .inf)
  else if low == "nan" then some .nan
  else
    let (m, e) := splitExpMark u
    match parseMantissa m, e with
    | some q, none => some (mkFinite neg q 0)
    | some q, some ex =>
        match parseExp ex with
        | some z => some (mkFinite neg q z)
        | none => none
    | none, _ => none
where
  /-- Scaling and range classification of a parsed literal. -/
  mkFinite (neg : Bool) (q : PyRat) (z : ℤ) : PyFloat :=
    if q.num == 0 then .finite (.ofNat 0)
    else if z ≥ 400 then (if neg then .ninf else .inf)
    else if z ≤ -400 then .finite (.ofNat 0)
    else
      let v : PyRat :=
        if z ≥ 0 then ⟨q.num * ((Nat.pow 10 z.toNat : ℕ) : ℤ), q.den⟩
        else ⟨q.num, q.den * Nat.pow 10 (-z).toNat⟩
      if atOverflow v then (if neg then .ninf else .inf)
      else .finite (if neg then ⟨-v.num, v.den⟩ else v)

/-- Python `int(q)` for a finite float: truncation toward zero. -/
def truncQ (q : PyRat) : ℤ := Int.tdiv q.num q.den

/-- Python `float(value)` for non-string values: bools and numbers convert,
everything else raises TypeError (represented by `none`). -/
def toFloatValue : Value → Option PyFloat
  | .vBool b => some (.finite (.ofNat (if b then 1 else 0)))
  | .vInt n => some (.finite (.ofInt n))
  | .vFloat f => some f
  | _ => none

/-- An ISO date `YYYY-MM-DD` with plausible month and day ranges. -/
def validIsoDate (l : List Char) : Bool :=
  match l with
  | [y1, y2, y3, y4, '-', m1, m2, '-', d1, d2] =>
      [y1, y2, y3, y4, m1, m2, d1, d2].all Char.isDigit &&
        (let m := natVal [m1, m2]
         let d := natVal [d1, d2]
         1 ≤ m && m ≤ 12 && 1 ≤ d && d ≤ 31)
  | _ => false

/-- A time-of-day suffix `HH:MM[:SS[.digits]][±HH:MM]`. -/
def validIsoTime (l : List Char) : Bool :=
  match l with
  | h1 :: h2 :: ':' :: m1 :: m2 :: rest =>
      [h1, h2, m1, m2].all Char.isDigit &&
        natVal [h1, h2] ≤ 23 && natVal [m1, m2] ≤ 59 &&
        (match rest with
         | [] => true
         | ':' :: s1 :: s2 :: rest2 =>
             [s1, s2].all Char.isDigit && natVal [s1, s2] ≤ 59 &&
               (match rest2 with
                | [] => true
                | '.' :: fs =>
                    let frac := fs.takeWhile Char.isDigit
                    !frac.isEmpty &&
                      (let off := fs.drop frac.length
                       off.isEmpty || validIsoOff off)
                | off => validIsoOff off)
         | off => validIsoOff off)
  | _ => false
where
  /-- A UTC offset `±HH:MM`. -/
  validIsoOff (l : List Char) : Bool :=
    match l with
    | sgn :: h1 :: h2 :: ':' :: m1 :: m2 :: [] =>
        (sgn == '+' || sgn == '-') && [h1, h2, m1, m2].all Char.isDigit
    | _ => false

/-- Python `datetime.fromisoformat`, as a validity check carrying the input
through (the pipeline never inspects the parsed object before serialising
fails on it). -/
def pyFromIso (s : String) : Option String :=
  let cs := s.data
  if validIsoDate (cs.take 10) then
    match cs.drop 10 with
    | [] => some s
    | sep :: timePart =>
        if (sep == 'T' || sep == ' ') && validIsoTime timePart then some s else none
  else none

/-- `_convert_type`: coerce a value to the target type.  `None` and the empty
string map to null before anything else.  ValueError/TypeError inside the
conversions are caught and return the current value (for integer/float
targets the comma-stripping of strings has already happened); the
OverflowError raised by `int()` of an infinite float is not caught and
escapes as `.error`. -/
def convert_type (value : Value) (target : String) : Except Unit Value :=
  if value == Value.vNull || pyEq value (.vStr "") then .ok .vNull
  else if target == "integer" then
    match value with
    | .vStr s =>
        let s2 := stripCommas s
        match pyFloatParse s2 with
        | some (.finite q) => .ok (.vInt (truncQ q))
        | some .inf => .error ()
        | some .ninf => .error ()
        | some .nan => .ok (.vStr s2)
        | none => .ok (.vStr s2)
    | v =>
        match toFloatValue v with
        | some (.finite q) => .ok (.vInt (truncQ q))
        | some .inf => .error ()
        | some .ninf => .error ()
        | some .nan => .ok v
        | none => .ok v
  else if target == "float" then
    match value with
    | .vStr s =>
        let s2 := stripCommas s
        match pyFloatParse s2 with
        | some f => .ok (.vFloat f)
        | none => .ok (.vStr s2)
    | v =>
        match toFloatValue v with
        | some f => .ok (.vFloat f)
        | none => .ok v
  else if target == "boolean" then
    match value with
    | .vBool b => .ok (.vBool b)
    | .vStr s =>
        .ok (.vBool (pyLower s == "true" || pyLower s == "yes" || pyLower s == "1"))
    | v => .ok (.vBool (pyTruthy v))
  else if target == "date" || target == "datetime" then
    match value with
    | .vStr s =>
        match pyFromIso (s.replace "Z" "+00:00") with
        | some d => .ok (.vDatetime d)
        | none => .ok value
    | _ => .ok value
  else if target == "array" then
    match value with
    | .vList xs => .ok (.vList xs)
    | v => .ok (.vList (if pyTruthy v then [v] else []))
  else if target == "url" then .ok (.vStr (pyStrip (pyStrOf value)))
  else if target == "email" then .ok (.vStr (pyLower (pyStrip (pyStrOf value))))
  else .ok value

/-! ## DoctifyExtractor._slugify and _derive_slug -/

/-- `re.sub(r"[^a-zA-Z0-9]+", "-", s)`: every maximal non-alphanumeric run
becomes one hyphen. -/
def dashRuns : Bool → List Char → List Char
  | _, [] => []
  | inRun, c :: rest =>
      if c.isAlphanum then c :: dashRuns false rest
      else (if inRun then [] else ['-']) ++ dashRuns true rest

/-- `re.sub(r"-{2,}", "-", s)`: hyphen runs collapse to one hyphen. -/
def collapseDashes : Bool → List Char → List Char
  | _, [] => []
  | inRun, c :: rest =>
      if c == '-' then (if inRun then [] else ['-']) ++ collapseDashes true rest
      else c :: collapseDashes false rest

/-- `str.strip("-")`. -/
def stripDashes (l : List Char) : List Char :=
  ((l.dropWhile (· == '-')).reverse.dropWhile (· == '-')).reverse

/-- `_slugify`: ASCII-fold (non-ASCII code points dropped, which is
encode-ascii-ignore after NFKD for the ASCII inputs the pipeline feeds it),
replace non-alphanumeric runs with hyphens, strip edge hyphens, lower-case,
collapse repeated hyphens. -/
def slugify (text : String) : String :=
  let ascii := text.data.filter (fun c => c.toNat < 128)
  let dashed := stripDashes (dashRuns false ascii)
  let lowered := (String.mk dashed).data.map Char.toLower
  String.mk (collapseDashes false lowered)

/-- The substring after the first occurrence of `sep` (empty when `sep` does
not occur). -/
def afterFirst (s sep : String) : String :=
  match s.splitOn sep with
  | [] => ""
  | [_] => ""
  | _ :: rest => String.intercalate sep rest

/-- `urlparse(url).path`: strip fragment and query; with a `://` the path
starts at the first slash after the authority; scheme-less inputs are
treated as bare paths (the approximation suffices for the URLs the pipeline
builds). -/
def urlparsePath (url : String) : String :=
  let u := beforeFirst (beforeFirst url "#") "?"
  if strContains u "://" then
    String.mk ((afterFirst u "://").data.dropWhile (fun c => c != '/'))
  else u

/-- A segment dropped by `_derive_slug`: the noise words, 1-2 digit numbers
and 4-digit years (`re.fullmatch`, case-insensitive). -/
def isDropSeg (s : String) : Bool :=
  let l := pyLower s
  l == "uk" || l == "en" || l == "blog" || l == "category" || l == "tag" || l == "page" ||
    (isDigits s.data && (s.length == 1 || s.length == 2 || s.length == 4))

/-- `re.fullmatch(r"\d{4}", s)`. -/
def fourDigits (s : String) : Bool := s.length == 4 && isDigits s.data

/-- The hash fallback of `_derive_slug`: `post-` plus 8 hex chars of sha1 of
canonical url, else title, else "x"; `.encode` on a truthy non-string raises
(uncaught). -/
def deriveSlugHash (canonicalUrl title : Value) : Except Unit String :=
  let dis :=
    if pyTruthy canonicalUrl then canonicalUrl
    else if pyTruthy title then title
    else .vStr "x"
  match dis with
  | .vStr s => .ok ("post-" ++ sha1hex8 s)
  | _ => .error ()

/-- The title branch of `_derive_slug`: slugify a truthy title
(`unicodedata.normalize` on a truthy non-string raises, uncaught), else the
hash fallback. -/
def deriveSlugTitle (canonicalUrl title : Value) : Except Unit String :=
  if pyTruthy title then
    match title with
    | .vStr t =>
        let cand := slugify t
        if cand != "" then .ok cand else deriveSlugHash canonicalUrl title
    | _ => .error ()
  else deriveSlugHash canonicalUrl title

/-- `_derive_slug`: last non-noise URL path segment, lower-cased, unless it
is a bare year; else the slugified title; else the hash fallback.  The
urlparse call is wrapped in try/except in the source, so a non-string
canonical url just leaves the path empty. -/
def derive_slug (canonicalUrl title : Value) : Except Unit String :=
  let path :=
    match canonicalUrl with
    | .vStr s => urlparsePath s
    | _ => ""
  let segs := (path.splitOn "/").filter (fun s => s != "")
  let filtered := segs.filter (fun s => !isDropSeg s)
  match filtered.getLast? with
  | some lastSeg =>
      let cand := pyLower lastSeg
      if !fourDigits cand then .ok cand
      else deriveSlugTitle canonicalUrl title
  | none => deriveSlugTitle canonicalUrl title

/-! ## DoctifyExtractor.extract_field -/

/-- Resolution of one `selectors` entry into (selector, method, attribute):
a dict entry reads its own keys (method defaulting to the field method, the
attribute NOT falling back to the field attribute); a bare string uses the
field method and field attribute. -/
def selParts (cfg : FieldConfig) : SelectorSpec → Option String × String × Option String
  | .conf sel m a => (sel, m.getD cfg.method, a)
  | .plain s => (some s, cfg.method, cfg.attr)

/-- One iteration of the selector loop: the branch for the resolved method
may assign a new value to the loop variable, otherwise the previous value is
kept (the source only assigns inside `if element:` style guards).  The
branch order is the source order: `text`, `html`, `attribute`-or-truthy
attribute, `text_list`, `list`, `exists`. -/
def stepSel (soup : Soup) (cfg : FieldConfig) (v : Value) (sc : SelectorSpec) : Value :=
  let (selOpt, selMethod, attrOpt) := selParts cfg sc
  if !optTruthy selOpt then v
  else
    let sel := selOpt.getD ""
    if selMethod == "text" then
      match soup.selectOne sel with
      | some el => .vStr (clean_text el.text)
      | none => v
    else if selMethod == "html" then
      match soup.selectOne sel with
      | some el => .vStr el.html
      | none => v
    else if selMethod == "attribute" || optTruthy attrOpt then
      match soup.selectOne sel with
      | some el =>
          if optTruthy attrOpt then el.getAttrD (attrOpt.getD "") (.vStr "") else v
      | none => v
    else if selMethod == "text_list" then
      let vals := (soup.select sel).map (fun el => clean_text el.text)
      .vList ((vals.filter (fun s => s != "")).map .vStr)
    else if selMethod == "list" then
      if optTruthy attrOpt then
        .vList (((soup.select sel).map
          (fun el => el.getAttrD (attrOpt.getD "") (.vStr ""))).filter pyTruthy)
      else v
    else if selMethod == "exists" then
      .vBool (soup.selectOne sel).isSome
    else v

/-- The per-selector success test of the loop:
`value is not None and value != '' and value != []`. -/
def breakTest (v : Value) : Bool :=
  !(v == Value.vNull) && !(pyEq v (.vStr "")) && !(pyEq v (.vList []))

/-- The selector loop: iterate the declared selectors in order, breaking at
the first value passing the success test (the telemetry hit-counter update
at the break is a side effect on run state not modelled here). -/
def selLoop (soup : Soup) (cfg : FieldConfig) : Value → List SelectorSpec → Value
  | v, [] => v
  | v, sc :: rest =>
      let v2 := stepSel soup cfg v sc
      if breakTest v2 then v2 else selLoop soup cfg v2 rest

/-- The post-loop part of `extract_field`: apply the configured pattern when
both the value and the pattern are truthy, then convert a non-None value to
the declared type, else substitute the fallback. -/
def finalizeVal (cfg : FieldConfig) (v : Value) : Except Unit Value :=
  let v2 :=
    match cfg.pattern with
    | some p => if pyTruthy v then applyPattern p v else v
    | none => v
  if v2 == Value.vNull then .ok cfg.fallback else convert_type v2 cfg.type

/-- `_extract_from_url`: `re.search` of the configured pattern against the
URL, returning the configured group (an out-of-range group raises). -/
def extract_from_url (url : String) (cfg : FieldConfig) : Except Unit Value :=
  match cfg.pattern with
  | none => .ok .vNull
  | some p =>
      match p.search url with
      | some m =>
          (matchGroup m cfg.group).map fun og =>
            match og with
            | some s => .vStr s
            | none => .vNull
      | none => .ok .vNull

/-- `_extract_canonical_url`: the href of the canonical link element. -/
def extract_canonical_url (soup : Soup) : Value :=
  match soup.selectOne "link[rel=\"canonical\"]" with
  | some el => (assocLookup el.attrs "href").getD .vNull
  | none => .vNull

/-- Python `item.get("@type") in schema_types`. -/
def typeIn (v : Value) (types : List String) : Bool :=
  types.any fun t => pyEq v (.vStr t)

/-- The list scan of `_extract_json_ld`: the first dict item whose @type is
in the allow-list; a non-dict item raises AttributeError (which the caller
catches per script). -/
def jsonLdFind (types : List String) : List Value → Except Unit (Option Value)
  | [] => .ok none
  | .vObj o :: rest =>
      if typeIn ((assocLookup o "@type").getD .vNull) types then .ok (some (.vObj o))
      else jsonLdFind types rest
  | _ :: _ => .error ()

/-- The per-script scan of `_extract_json_ld`: a script with no string
payload makes `json.loads(None)` raise TypeError (uncaught); a JSON parse
failure or an AttributeError is caught and moves on to the next script; a
top-level `@graph` array is unwrapped; a dict is returned if its @type is
allowed. -/
def jsonLdScan (types : List String) : List Element → Except Unit Value
  | [] => .ok .vNull
  | s :: rest =>
      match s.scriptData with
      | .noScriptString => .error ()
      | .badJson => jsonLdScan types rest
      | .jsonVal data0 =>
          let data :=
            match data0 with
            | .vObj o =>
                match assocLookup o "@graph" with
                | some g => g
                | none => .vObj o
            | d => d
          match data with
          | .vList items =>
              match jsonLdFind types items with
              | .ok (some item) => .ok item
              | .ok none => jsonLdScan types rest
              | .error _ => jsonLdScan types rest
          | .vObj o =>
              if typeIn ((assocLookup o "@type").getD .vNull) types then .ok (.vObj o)
              else jsonLdScan types rest
          | _ => jsonLdScan types rest

/-- `_extract_json_ld` with the default script selector. -/
def extract_json_ld (soup : Soup) (cfg : FieldConfig) : Except Unit Value :=
  let sel := cfg.selector.getD "script[type=\"application/ld+json\"]"
  jsonLdScan cfg.schema_types (soup.select sel)

/-- `extract_field`: the special methods bypass the selector loop and return
directly (no pattern, coercion or fallback); otherwise run the selector
loop and the post-processing. -/
def extract_field (soup : Soup) (cfg : FieldConfig) (url : String) : Except Unit Value :=
  if cfg.method == "from_url" then extract_from_url url cfg
  else if cfg.method == "canonical_url" then .ok (extract_canonical_url soup)
  else if cfg.method == "json_ld" then extract_json_ld soup cfg
  else finalizeVal cfg (selLoop soup cfg .vNull cfg.selectors)

/-! ## DoctifyExtractor.detect_page_type -/

/-- One meta-pattern rule of the detection schema. -/
structure MetaRule where
  selector : Option String := none
  attr : Option String := none
  value : Option String := none

/-- The detection rules of one page type.  An absent or falsy (empty-string)
url_pattern is `none`. -/
structure DetectRule where
  url_pattern : Option Regex := none
  meta_patterns : List MetaRule := []
  body_class_patterns : List String := []

/-- The meta-pattern loop of `detect_page_type`: a missing selector makes
`select_one(None)` raise; when the element is found, its attribute value is
lowered (raising on the list-valued class attribute) and tested for the
lowered expected substring (a missing expected value raises on
`None.lower()`). -/
def detectMeta (soup : Soup) : List MetaRule → Except Unit Bool
  | [] => .ok false
  | r :: rest => do
      match r.selector with
      | none => .error ()
      | some sel =>
          match soup.selectOne sel with
          | some el => do
              let av ←
                match (match r.attr with
                       | some a => el.getAttrD a (.vStr "")
                       | none => .vStr "") with
                | .vStr s => Except.ok (pyLower s)
                | _ => Except.error ()
              let ev ←
                match r.value with
                | some v => Except.ok (pyLower v)
                | none => Except.error ()
              if strContains av ev then .ok true else detectMeta soup rest
          | none => detectMeta soup rest

/-- The class list of the body element (`body.get("class", [])`); bs4 class
lists are lists of strings, any other shape raises downstream. -/
def classStrs : Value → Except Unit (List String)
  | .vList items =>
      items.foldr
        (fun it acc =>
          match it, acc with
          | .vStr s, .ok l => .ok (s :: l)
          | _, _ => .error ())
        (.ok [])
  | _ => .error ()

/-- The body-class channel of `detect_page_type`. -/
def detectBody (bodyEl : Option Element) (patterns : List String) : Except Unit Bool :=
  match bodyEl with
  | none => .ok false
  | some body => do
      let classes ← classStrs (body.getAttrD "class" (.vList []))
      .ok (patterns.any fun p => classes.any fun c => strContains (pyLower c) (pyLower p))

/-- `detect_page_type`: iterate the detection rules in schema order; per
page type try the URL regex (`re.match`), then the meta patterns, then the
body classes; the first hit wins; no hit at all gives None. -/
def detect_page_type (detection : List (String × DetectRule)) (url : String) (soup : Soup) :
    Except Unit (Option String) :=
  match detection with
  | [] => .ok none
  | (pt, rules) :: rest =>
      let urlHit :=
        match rules.url_pattern with
        | some p => (p.rmatch url).isSome
        | none => false
      if urlHit then .ok (some pt)
      else do
        let mhit ← detectMeta soup rules.meta_patterns
        if mhit then .ok (some pt)
        else do
          let bhit ← detectBody (soup.findTag "body") rules.body_class_patterns
          if bhit then .ok (some pt)
          else detect_page_type rest url soup

/-! ## DoctifyExtractor.extract_entity and extract_reviews -/

/-- Python `a or b`. -/
def pyOr (a b : Value) : Value := if pyTruthy a then a else b

/-- The selector schema: the per-page-type field maps (including the
`review` entry) and the `page_type_detection` section. -/
structure SelectorsSchema where
  fieldMaps : List (String × List (String × FieldConfig)) := []
  detection : List (String × DetectRule) := []

/-- The field-resolution loop of `extract_entity` plus the blog_post slug
derivation — everything before the timestamp stamping. -/
def extract_entity_core (schema : SelectorsSchema) (pageType : String) (soup : Soup)
    (url : String) : Except Unit PyDict :=
  let fields := (schema.fieldMaps.lookup pageType).getD []
  let base := fields.foldl
    (fun acc (p : String × FieldConfig) =>
      if p.1 == "container" || p.1 == "structured_data" then acc
      else
        match extract_field soup p.2 url with
        | .ok v => dictSet acc p.1 v
        | .error _ => dictSet acc p.1 p.2.fallback)
    []
  if pageType == "blog_post" then
    match derive_slug (pyOr (dictGetD base "canonical_url" .vNull) (.vStr url))
        (dictGetD base "title" (.vStr "")) with
    | .error e => .error e
    | .ok slug => .ok (dictSet base "slug" (.vStr slug))
  else .ok base

/-- `extract_entity`: resolve every configured field (the reserved
`container`/`structured_data` keys skipped; a per-field exception falls back
to the configured fallback), derive the slug for blog posts, then stamp
`extracted_at` and `source_file`. -/
def extract_entity (schema : SelectorsSchema) (pageType : String) (soup : Soup)
    (url : String) (htmlPath : String) (now : String) : Except Unit PyDict :=
  match extract_entity_core schema pageType soup url with
  | .error e => .error e
  | .ok base => .ok (dictSet (dictSet base "extracted_at" (.vStr now)) "source_file" (.vStr htmlPath))

/-- `extract_reviews`: for each element matching the review container
selector, re-root resolution to that container, resolve the review fields
(skipping `container`), stamp provenance, and synthesise a review_id when
none was resolved. -/
def extract_reviews (schema : SelectorsSchema) (soup : Soup) (entityId : Value)
    (entityType : String) (now : String) : List PyDict :=
  let rc := (schema.fieldMaps.lookup "review").getD []
  let containerSel := (((rc.lookup "container").bind (·.selector)).getD "div.review")
  ((soup.select containerSel).enum).map fun (pr : Nat × Element) =>
    let base : PyDict :=
      [("reviewed_entity_type", .vStr entityType),
        ("reviewed_entity_id", entityId),
        ("extracted_at", .vStr now)]
    let d := rc.foldl
      (fun acc (p : String × FieldConfig) =>
        if p.1 == "container" then acc
        else
          match extract_field (elemSoup pr.2) p.2 "" with
          | .ok v => dictSet acc p.1 v
          | .error _ => dictSet acc p.1 p.2.fallback)
      base
    if pyTruthy (dictGetD d "review_id" .vNull) then d
    else dictSet d "review_id" (.vStr (pyStrOf entityId ++ "_review_" ++ toString pr.1))

/-! ## DoctifyExtractor.process_file -/

/-- One corpus document: its file path and parsed DOM (the corpus is
modelled as readable parsed documents; the unreadable-file branch that
returns None before parsing is outside the model). -/
structure Doc where
  path : String
  soup : Soup

/-- `Path.relative_to`: the path under the base, or ValueError. -/
def relativeTo (base path : String) : Option String :=
  if path == base then some ""
  else if (base ++ "/").isPrefixOf path then some (path.drop (base.length + 1))
  else none

/-- `Path.parent` of a relative path. -/
def pathParent (p : String) : String :=
  match p.splitOn "/" with
  | [] => "."
  | [_] => "."
  | comps => String.intercalate "/" comps.dropLast

/-- The URL reconstruction of `process_file` when no canonical link exists:
the path relative to mirror/rendered or mirror/raw (chosen by substring
test), parent directory, prefixed with https (a failing relative_to raises
ValueError, caught at the document level). -/
def reconstructUrl (mirrorDir path : String) : Except Unit String :=
  let relOpt :=
    if strContains path "rendered" then relativeTo (mirrorDir ++ "/rendered") path
    else relativeTo (mirrorDir ++ "/raw") path
  match relOpt with
  | some rel => .ok ("https://" ++ pathParent rel)
  | none => .error ()

/-- The result dict of `process_file`. -/
structure ProcResult where
  pageType : String
  url : String
  entity : PyDict
  reviews : List PyDict

/-- The URL of the document: the canonical URL when one is present and
non-empty (a truthy non-string canonical raises at `.startswith`), else the
reconstruction from the mirror-relative path. -/
def urlOf (mirrorDir : String) (d : Doc) : Except Unit String :=
  match extract_canonical_url d.soup with
  | .vStr s =>
      if s != "" then Except.ok s else reconstructUrl mirrorDir d.path
  | v =>
      if pyTruthy v then Except.error () else reconstructUrl mirrorDir d.path

/-- `process_file`: canonical URL or reconstructed URL, page-type detection
(None means the document is skipped), entity extraction, and review
extraction for practitioner/clinic pages with a truthy doctify_id. -/
def process_file (schema : SelectorsSchema) (mirrorDir : String) (now : String) (d : Doc) :
    Except Unit (Option ProcResult) :=
  match urlOf mirrorDir d with
  | .error e => .error e
  | .ok url =>
      match detect_page_type schema.detection url d.soup with
      | .error e => .error e
      | .ok none => .ok none
      | .ok (some pt) =>
          match extract_entity schema pt d.soup url d.path now with
          | .error e => .error e
          | .ok entity =>
              let reviews :=
                if pt == "practitioner" || pt == "clinic" then
                  let eid := dictGetD entity "doctify_id" .vNull
                  if pyTruthy eid then extract_reviews schema d.soup eid pt now else []
                else []
              .ok (some ⟨pt, url, entity, reviews⟩)

/-! ## DoctifyExtractor.process_directory -/

mutual

/-- `json.dumps` succeeds on the value (datetime objects raise TypeError). -/
def jsonDumpable : Value → Bool
  | .vDatetime _ => false
  | .vList xs => jsonDumpableList xs
  | .vObj fs => jsonDumpableFields fs
  | _ => true

/-- Serialisability of every element. -/
def jsonDumpableList : List Value → Bool
  | [] => true
  | v :: rest => jsonDumpable v && jsonDumpableList rest

/-- Serialisability of every field value. -/
def jsonDumpableFields : List (String × Value) → Bool
  | [] => true
  | (_, v) :: rest => jsonDumpable v && jsonDumpableFields rest

end

/-- The run statistics of `process_directory`. -/
structure RunStats where
  total : Nat := 0
  processed : Nat := 0
  skipped : Nat := 0
  errors : Nat := 0
  byType : List (String × Nat) := []
  slug_collisions : Nat := 0
deriving Repr, DecidableEq

/-- `stats["by_type"][t] = stats["by_type"].get(t, 0) + k`. -/
def bumpType (bt : List (String × Nat)) (t : String) (k : Nat) : List (String × Nat) :=
  match bt with
  | [] => [(t, k)]
  | (u, n) :: rest => if u == t then (u, n + k) :: rest else (u, n) :: bumpType rest t k

/-- The mutable run state of the processing loop: statistics, the seen-slug
dict (keys only), and the records written to the per-type output files, in
write order. -/
structure RunState where
  stats : RunStats := {}
  seenSlugs : List Value := []
  outputs : List (String × PyDict) := []

/-- The entity types with output files (jsonl format). -/
def entityTypes : List String := ["practitioner", "clinic", "blog_post", "review", "specialism"]

/-- Insertion of a key into the seen-slug dict. -/
def seenInsert (seen : List Value) (v : Value) : List Value :=
  if pyMem v seen then seen else seen ++ [v]

/-- The collision disambiguator of the slug block:
`entity_data.get("canonical_url") or entity_data.get("source_file", "")`;
`.encode` on a truthy non-string raises. -/
def disambiguator (entity : PyDict) : Except Unit String :=
  match pyOr (dictGetD entity "canonical_url" .vNull) (dictGetD entity "source_file" (.vStr "")) with
  | .vStr s => .ok s
  | _ => .error ()

/-- The slug block of the processing loop, for a blog_post entity that has a
slug key: an unhashable slug raises at the membership test; a colliding
slug is suffixed with 8 hex chars of sha1 of the disambiguator and the
collision counter is bumped; the final slug is recorded as seen. -/
def slugAdjust (entity : PyDict) (orig : Value) (seen : List Value) (collisions : Nat) :
    Except Unit (PyDict × List Value × Nat) :=
  if !pyHashable orig then .error ()
  else if pyMem orig seen then
    match disambiguator entity with
    | .error e => .error e
    | .ok u =>
        let newSlug := Value.vStr (pyStrOf orig ++ "-" ++ sha1hex8 u)
        .ok (dictSet entity "slug" newSlug, seenInsert seen newSlug, collisions + 1)
  else .ok (entity, seenInsert seen orig, collisions)

/-- The review write loop: each review is serialised in order; a
non-serialisable review raises after the earlier ones are already written
(the error payload carries the partial output list). -/
def writeReviewsAux (outs : List (String × PyDict)) :
    List PyDict → Except (List (String × PyDict)) (List (String × PyDict))
  | [] => .ok outs
  | rv :: rest =>
      if jsonDumpable (.vObj rv) then writeReviewsAux (outs ++ [("review", rv)]) rest
      else .error outs

/-- The write phase of one loop iteration: entity write (with its by_type
bump) when the page type has an output file, then the review writes and
their by_type bump, then the processed counter; a serialisation failure is
caught by the loop handler as a document error, after the mutations already
made. -/
def procWrite (r : ProcResult) (entity : PyDict) (st : RunState) : RunState :=
  let afterEntity : Option RunState :=
    if entityTypes.contains r.pageType then
      if jsonDumpable (.vObj entity) then
        some { st with
          outputs := st.outputs ++ [(r.pageType, entity)],
          stats := { st.stats with byType := bumpType st.stats.byType r.pageType 1 } }
      else none
    else some st
  match afterEntity with
  | none => { st with stats := { st.stats with errors := st.stats.errors + 1 } }
  | some st2 =>
      if r.reviews.isEmpty then
        { st2 with stats := { st2.stats with processed := st2.stats.processed + 1 } }
      else
        match writeReviewsAux st2.outputs r.reviews with
        | .ok outs =>
            { st2 with
              outputs := outs,
              stats := { st2.stats with
                byType := bumpType st2.stats.byType "review" r.reviews.length,
                processed := st2.stats.processed + 1 } }
        | .error outs =>
            { st2 with
              outputs := outs,
              stats := { st2.stats with errors := st2.stats.errors + 1 } }

/-- One iteration of the processing loop of `process_directory`: a raised
exception counts as an error; a None result counts as skipped; otherwise
the blog_post slug block runs and the record is written. -/
def procStep (schema : SelectorsSchema) (mirrorDir now : String) (st : RunState) (d : Doc) :
    RunState :=
  match process_file schema mirrorDir now d with
  | .error _ => { st with stats := { st.stats with errors := st.stats.errors + 1 } }
  | .ok none => { st with stats := { st.stats with skipped := st.stats.skipped + 1 } }
  | .ok (some r) =>
      let adj : Except Unit (PyDict × List Value × Nat) :=
        if r.pageType == "blog_post" then
          match dictGet r.entity "slug" with
          | some orig => slugAdjust r.entity orig st.seenSlugs st.stats.slug_collisions
          | none => .ok (r.entity, st.seenSlugs, st.stats.slug_collisions)
        else .ok (r.entity, st.seenSlugs, st.stats.slug_collisions)
      match adj with
      | .error _ => { st with stats := { st.stats with errors := st.stats.errors + 1 } }
      | .ok (entity, seen, colls) =>
          procWrite r entity
            { st with
              seenSlugs := seen,
              stats := { st.stats with slug_collisions := colls } }

/-- The initial run state: total set to the corpus size, everything else
empty. -/
def runInit (docs : List Doc) : RunState :=
  { stats := { total := docs.length }, seenSlugs := [], outputs := [] }

/-- The processing loop of `process_directory` over the corpus enumeration.
The corpus order is an input: the source builds the file list through
set()-based discovery (rendered preferred over raw), and Python set
iteration order over paths depends on the per-process string hash seed, so
an unchanged corpus does not pin the order across runs. -/
def process_directory (schema : SelectorsSchema) (mirrorDir now : String) (docs : List Doc) :
    RunState :=
  docs.foldl (procStep schema mirrorDir now) (runInit docs)

/-! ## DataValidator (validate.py) -/

/-- One field schema of entities.yaml. -/
structure FieldVSchema where
  type : String := "string"
  required : Bool := false
  enum : Option (List Value) := none

/-- One entity schema of entities.yaml.  A present-but-empty schema dict
(falsy in Python, treated as unknown type) is not distinguished from an
absent one; the schema files in use have nonempty entries. -/
structure EntitySchema where
  fields : List (String × FieldVSchema) := []
  primary_key : Option String := none

/-- The `entities` mapping of entities.yaml. -/
abbrev EntitiesSchema := List (String × EntitySchema)

/-- Python `type(value).__name__`. -/
def typeName : Value → String
  | .vNull => "NoneType"
  | .vBool _ => "bool"
  | .vInt _ => "int"
  | .vFloat _ => "float"
  | .vStr _ => "str"
  | .vList _ => "list"
  | .vObj _ => "dict"
  | .vDatetime _ => "datetime"

/-- `_validate_type`: exact isinstance checks per declared type (bool is
excluded from integer and float; date/datetime accept strings only); an
undeclared type name passes. -/
def validate_type (fieldName : String) (value : Value) (expected : String) : Option String :=
  let mismatch (exp : String) : Option String :=
    some ("Field \x27" ++ fieldName ++ "\x27 expected " ++ exp ++ ", got " ++ typeName value)
  if expected == "string" then
    match value with | .vStr _ => none | _ => mismatch "string"
  else if expected == "integer" then
    match value with | .vInt _ => none | _ => mismatch "integer"
  else if expected == "float" then
    match value with | .vInt _ => none | .vFloat _ => none | _ => mismatch "float"
  else if expected == "boolean" then
    match value with | .vBool _ => none | _ => mismatch "boolean"
  else if expected == "array" || expected == "array[string]" then
    match value with | .vList _ => none | _ => mismatch "array"
  else if expected == "object" then
    match value with | .vObj _ => none | _ => mismatch "object"
  else if expected == "url" || expected == "email" || expected == "text" || expected == "html" then
    match value with | .vStr _ => none | _ => mismatch "string"
  else if expected == "date" || expected == "datetime" then
    match value with | .vStr _ => none | _ => mismatch "datetime string"
  else none

/-- A domain label: 1 to 63 characters, alphanumeric at both ends,
alphanumeric or hyphen inside. -/
def validLabel (l : List Char) : Bool :=
  match l with
  | [] => false
  | [c] => c.isAlphanum
  | c :: rest =>
      c.isAlphanum && l.length ≤ 63 &&
        (match rest.getLast? with
         | some e => e.isAlphanum && rest.dropLast.all (fun x => x.isAlphanum || x == '-')
         | none => true)

/-- The host grammar of the URL regex: dotted labels with a 2-6 letter TLD
(optional trailing dot), or localhost, or a dotted quad of 1-3 digit
groups. -/
def validHost (s : String) : Bool :=
  if s == "localhost" then true
  else
    let quad := s.splitOn "."
    if quad.length == 4 && quad.all (fun g => g.length ≥ 1 && g.length ≤ 3 && isDigits g.data) then
      true
    else
      let t := if s.endsWith "." then s.dropRight 1 else s
      let parts := t.splitOn "."
      parts.length ≥ 2 &&
        parts.dropLast.all (fun p => validLabel p.data) &&
        (match parts.getLast? with
         | some tld => tld.length ≥ 2 && tld.length ≤ 6 && tld.data.all Char.isAlpha
         | none => false)

/-- The path tail of the URL regex: empty, a bare slash, or a slash or
question mark followed by at least one non-space character run. -/
def validUrlTail (l : List Char) : Bool :=
  match l with
  | [] => true
  | ['/'] => true
  | c :: rest =>
      (c == '/' || c == '?') && !rest.isEmpty && rest.all (fun x => !pySpaceChar x)

/-- `_is_valid_url`: the compiled, case-insensitive RFC-3986-ish pattern
(scheme, host, optional port, path tail), decided structurally. -/
def is_valid_url (v : Value) : Bool :=
  match v with
  | .vStr s0 =>
      let s := pyLower s0
      let rest :=
        if s.startsWith "https://" then some (s.drop 8)
        else if s.startsWith "http://" then some (s.drop 7)
        else none
      match rest with
      | none => false
      | some r =>
          let hostPort := String.mk (r.data.takeWhile (fun c => c != '/' && c != '?'))
          let tail := r.data.drop hostPort.length
          let (host, portOk) :=
            match hostPort.splitOn ":" with
            | [h] => (h, true)
            | [h, p] => (h, isDigits p.data)
            | _ => (hostPort, false)
          validHost host && portOk && validUrlTail tail
  | _ => false

/-- The local-part characters of the email regex. -/
def emailLocalChar (c : Char) : Bool :=
  c.isAlphanum || c == '.' || c == '_' || c == '%' || c == '+' || c == '-'

/-- `_is_valid_email`: `^[a-zA-Z0-9._%+-]+@[a-zA-Z0-9.-]+\.[a-zA-Z]{2,}$`,
decided structurally (the dollar anchor forces the dot chosen for the TLD to
have an all-letter tail, so the last dot decides). -/
def is_valid_email (v : Value) : Bool :=
  match v with
  | .vStr s =>
      match s.splitOn "@" with
      | [localPart, dom] =>
          !localPart.data.isEmpty && localPart.data.all emailLocalChar &&
            (let parts := dom.splitOn "."
             parts.length ≥ 2 &&
               (match parts.getLast? with
                | some tld =>
                    tld.length ≥ 2 && tld.data.all Char.isAlpha &&
                      (let before := String.intercalate "." parts.dropLast
                       !before.data.isEmpty &&
                         before.data.all (fun c => c.isAlphanum || c == '.' || c == '-'))
                | none => false))
      | _ => false
  | _ => false

/-- The in-range test of the float rating refinement (`0 <= value <= 5`;
comparisons with nan are false). -/
def ratingInRange (v : Value) : Bool :=
  match v with
  | .vInt n => 0 ≤ n && n ≤ 5
  | .vFloat (.finite q) => 0 ≤ q.num && q.num ≤ 5 * q.den
  | _ => false

/-- The negative test of the integer refinement (`value < 0`). -/
def intIsNeg (v : Value) : Bool :=
  match v with
  | .vInt n => n < 0
  | _ => false

/-- The rendering of the enum list in the error message (Python list repr,
approximated; no claim depends on this text). -/
def enumListStr (allowed : List Value) : String :=
  "[" ++ String.intercalate ", " (allowed.map pyStrOf) ++ "]"

/-- `validate_field`: a required empty field is one terminal error; a null
non-required value passes; a type mismatch is one terminal error; on a type
match the url/email/rating/non-negative refinements and then the enum
constraint may each add one error. -/
def validate_field (fieldName : String) (value : Value) (fs : FieldVSchema) : List String :=
  if fs.required && (value == Value.vNull || pyEq value (.vStr "") || pyEq value (.vList [])) then
    ["Required field \x27" ++ fieldName ++ "\x27 is missing or empty"]
  else if value == Value.vNull && !fs.required then []
  else
    match validate_type fieldName value fs.type with
    | some e => [e]
    | none =>
        let refinement :=
          if fs.type == "url" then
            if !is_valid_url value then
              ["Field \x27" ++ fieldName ++ "\x27 has invalid URL format: " ++ pyStrOf value]
            else []
          else if fs.type == "email" then
            if !is_valid_email value then
              ["Field \x27" ++ fieldName ++ "\x27 has invalid email format: " ++ pyStrOf value]
            else []
          else if fs.type == "float" then
            if strContains (pyLower fieldName) "rating" && !ratingInRange value then
              ["Field \x27" ++ fieldName ++ "\x27 rating value " ++ pyStrOf value ++
                " is out of range (0-5)"]
            else []
          else if fs.type == "integer" then
            if intIsNeg value then
              ["Field \x27" ++ fieldName ++ "\x27 has negative integer value: " ++ pyStrOf value]
            else []
          else []
        let enumErr :=
          match fs.enum with
          | some allowed =>
              if !pyMem value allowed then
                ["Field \x27" ++ fieldName ++ "\x27 value \x27" ++ pyStrOf value ++
                  "\x27 not in allowed values: " ++ enumListStr allowed]
              else []
          | none => []
        refinement ++ enumErr

/-- `validate_entity`: every declared field is validated against the entity
value (missing fields validate as None), then the declared primary key must
be truthy on the entity. -/
def validate_entity (entities : EntitiesSchema) (entity : PyDict) (entityType : String) :
    Bool × List String :=
  match entities.lookup entityType with
  | none => (false, ["Unknown entity type: " ++ entityType])
  | some es =>
      let fieldErrs := es.fields.foldl
        (fun acc (p : String × FieldVSchema) =>
          acc ++ validate_field p.1 (dictGetD entity p.1 .vNull) p.2)
        []
      let pkErrs :=
        match es.primary_key with
        | some pk =>
            if pk != "" then
              if !pyTruthy (dictGetD entity pk .vNull) then
                ["Primary key \x27" ++ pk ++ "\x27 is missing or empty"]
              else []
            else []
        | none => []
      let errs := fieldErrs ++ pkErrs
      (errs.isEmpty, errs)

/-- One line of a JSONL stream as seen after `json.loads`: blank (skipped,
but consuming a line number), unparseable, or a parsed object. -/
inductive JsonLine where
  | blank
  | badJson
  | record (entity : PyDict)

/-- One recorded validation error sample. -/
structure VError where
  line : Nat
  entity_id : Option Value
  errors : List String
deriving DecidableEq, Repr

/-- The per-file validation statistics. -/
structure VStats where
  total : Nat := 0
  valid : Nat := 0
  invalid : Nat := 0
  errors : List VError := []
  primary_key_duplicates : List (Nat × Value) := []
  field_coverage : List (String × Nat) := []
deriving DecidableEq, Repr

/-- The scan loop of `validate_file` over the numbered lines: blank lines
are skipped; a JSON parse error counts invalid with a bounded error sample;
a record is counted, covered, validated, and its truthy primary key is
checked against the seen set (an unhashable key raises TypeError, which the
loop does not catch) and then added to it. -/
def vfGo (entities : EntitiesSchema) (entityType : String) (pk : Option String)
    (lineNum : Nat) (stats : VStats) (seen : List Value) :
    List JsonLine → Except Unit VStats
  | [] => .ok stats
  | .blank :: rest => vfGo entities entityType pk (lineNum + 1) stats seen rest
  | .badJson :: rest =>
      let stats :=
        { stats with
          invalid := stats.invalid + 1,
          errors :=
            if stats.errors.length < 100 then
              stats.errors ++ [⟨lineNum, none, ["Invalid JSON"]⟩]
            else stats.errors }
      vfGo entities entityType pk (lineNum + 1) stats seen rest
  | .record e :: rest =>
      let stats :=
        { stats with
          total := stats.total + 1,
          field_coverage :=
            e.foldl (fun fc (kv : String × Value) => bumpType fc kv.1 1) stats.field_coverage }
      let vres := validate_entity entities e entityType
      let stats :=
        if vres.1 then { stats with valid := stats.valid + 1 }
        else
          { stats with
            invalid := stats.invalid + 1,
            errors :=
              if stats.errors.length < 100 then
                stats.errors ++
                  [⟨lineNum, some (match pk with
                                   | some p => dictGetD e p .vNull
                                   | none => .vNull), vres.2⟩]
              else stats.errors }
      match pk with
      | some p =>
          if p != "" then
            let pkv := dictGetD e p .vNull
            if pyTruthy pkv then
              if !pyHashable pkv then .error ()
              else
                let stats :=
                  if pyMem pkv seen then
                    { stats with
                      primary_key_duplicates := stats.primary_key_duplicates ++ [(lineNum, pkv)] }
                  else stats
                vfGo entities entityType pk (lineNum + 1) stats (seenInsert seen pkv) rest
            else vfGo entities entityType pk (lineNum + 1) stats seen rest
          else vfGo entities entityType pk (lineNum + 1) stats seen rest
      | none => vfGo entities entityType pk (lineNum + 1) stats seen rest

/-- `validate_file` over one entity type and the numbered JSONL lines. -/
def validate_file (entities : EntitiesSchema) (entityType : String) (lines : List JsonLine) :
    Except Unit VStats :=
  let pk :=
    match entities.lookup entityType with
    | some es => es.primary_key
    | none => none
  vfGo entities entityType pk 1 {} [] lines

/-! ## Analysis definitions used by the claim statements -/

/-- The selector loop restricted to a prefix on which no selector breaks:
`some v` is the loop value after the prefix, `none` means some selector in
the prefix already passed the success test. -/
def selLoopNB (soup : Soup) (cfg : FieldConfig) : Value → List SelectorSpec → Option Value
  | v, [] => some v
  | v, sc :: rest =>
      let v2 := stepSel soup cfg v sc
      if breakTest v2 then none else selLoopNB soup cfg v2 rest

/-- The slug values of the blog_post records written to output, in write
order (records without a slug key have no slug assigned). -/
def blogSlugs (outs : List (String × PyDict)) : List Value :=
  outs.filterMap fun p => if p.1 == "blog_post" then dictGet p.2 "slug" else none

/-- The declared primary key of an entity type. -/
def pkOfType (entities : EntitiesSchema) (t : String) : Option String :=
  (entities.lookup t).bind (·.primary_key)

/-- The (page_type, primary_key value, slug value) projection of the written
records, which the idempotence claim compares across runs. -/
def runTuples (entities : EntitiesSchema) (outs : List (String × PyDict)) :
    List (String × Value × Value) :=
  outs.map fun p =>
    (p.1,
      (match pkOfType entities p.1 with
       | some pk => dictGetD p.2 pk .vNull
       | none => .vNull),
      dictGetD p.2 "slug" .vNull)

/-- This processing step suffixes a colliding blog_post slug with a hash
that is itself already issued (the second-collision case the code never
rechecks). -/
def stepSecondCollision (schema : SelectorsSchema) (mirrorDir now : String)
    (st : RunState) (d : Doc) : Bool :=
  match process_file schema mirrorDir now d with
  | .ok (some r) =>
      if r.pageType == "blog_post" then
        match dictGet r.entity "slug" with
        | some orig =>
            if pyHashable orig && pyMem orig st.seenSlugs then
              match disambiguator r.entity with
              | .ok u => pyMem (.vStr (pyStrOf orig ++ "-" ++ sha1hex8 u)) st.seenSlugs
              | .error _ => false
            else false
        | none => false
      else false
  | _ => false

/-- No step of the run hits the second-collision case. -/
def noSecondCollision (schema : SelectorsSchema) (mirrorDir now : String) :
    RunState → List Doc → Bool
  | _, [] => true
  | st, d :: ds =>
      !stepSecondCollision schema mirrorDir now st d &&
        noSecondCollision schema mirrorDir now (procStep schema mirrorDir now st d) ds

/-- The inputs on which `_convert_type` raises: an integer target whose
`float()` conversion yields an infinity, so that `int()` raises an
OverflowError that the ValueError/TypeError handler does not catch. -/
def convRaises (v : Value) : Bool :=
  match v with
  | .vStr s =>
      s != "" &&
        (match pyFloatParse (stripCommas s) with
         | some .inf => true
         | some .ninf => true
         | _ => false)
  | v =>
      match toFloatValue v with
      | some .inf => true
      | some .ninf => true
      | _ => false

/-- The value is neither a string nor a list (the shapes `_apply_pattern`
returns unchanged without searching). -/
def notStrOrList : Value → Bool
  | .vStr _ => false
  | .vList _ => false
  | _ => true

/-- The truthy primary-key value carried by line index `i` (0-based), when
that line is a parsed record. -/
def truthyPkAt (p : String) (lines : List JsonLine) (i : Nat) : Option Value :=
  match lines.get? i with
  | some (.record e) =>
      let v := dictGetD e p .vNull
      if pyTruthy v then some v else none
  | _ => none

/-- The duplicate list the duplicate-key claim describes, stated without the
seen-set fold: every line whose truthy key already occurred (under Python
equality) on an earlier line, recorded with its 1-based line number. -/
def dupSpec (p : String) (lines : List JsonLine) : List (Nat × Value) :=
  (List.range lines.length).filterMap fun i =>
    match truthyPkAt p lines i with
    | some v =>
        if (List.range i).any (fun j =>
            match truthyPkAt p lines j with
            | some w => pyEq v w
            | none => false)
        then some (i + 1, v)
        else none
    | none => none

/-- The duplicate records produced by the seen-set fold, in isolation from
the other statistics (the bridge between `vfGo` and `dupSpec`). -/
def dupsFold (p : String) (seen : List Value) (n : Nat) : List JsonLine → List (Nat × Value)
  | [] => []
  | .record e :: rest =>
      let pkv := dictGetD e p .vNull
      if pyTruthy pkv then
        (if pyMem pkv seen then [(n, pkv)] else []) ++
          dupsFold p (seenInsert seen pkv) (n + 1) rest
      else dupsFold p seen (n + 1) rest
  | _ :: rest => dupsFold p seen (n + 1) rest

/-- A well-formed primary-key value: hashable (not a list or dict — an
unhashable key raises in the seen-set test) and, for floats, carrying a
well-formed rational (every float the JSON loader produces has a nonzero
denominator). -/
def pkWf : Value → Bool
  | .vList _ => false
  | .vObj _ => false
  | .vFloat (.finite q) => q.den != 0
  | _ => true

/-- A well-formed float: finite values carry a nonzero denominator. -/
def floatWf : PyFloat → Prop
  | .finite q => q.den ≠ 0
  | _ => True

/-- The duplicate list generalised to a starting seen set and starting line
number (the induction form of `dupSpec`). -/
def dupSpecSeen (p : String) (seen : List Value) (n : Nat) (lines : List JsonLine) :
    List (Nat × Value) :=
  (List.range lines.length).filterMap fun i =>
    match truthyPkAt p lines i with
    | some v =>
        if pyMem v seen || (List.range i).any (fun j =>
            match truthyPkAt p lines j with
            | some w => pyEq v w
            | none => false)
        then some (i + n, v)
        else none
    | none => none

/-- Two entity records that agree except possibly at the `extracted_at`
value, which is a string timestamp in both. -/
def exceptTs (e e' : PyDict) : Prop :=
  List.Forall₂
    (fun (a b : String × Value) =>
      a.1 = b.1 ∧
        (a.2 = b.2 ∨ (a.1 = "extracted_at" ∧ ∃ s s', a.2 = .vStr s ∧ b.2 = .vStr s')))
    e e'

/-- Output lists that agree pairwise: equal page types, records related by
`exceptTs`. -/
def outRel (a b : List (String × PyDict)) : Prop :=
  List.Forall₂ (fun (o o' : String × PyDict) => o.1 = o'.1 ∧ exceptTs o.2 o'.2) a b

/-- Run states that agree except for `extracted_at` values inside written
records: equal statistics, equal seen-slug sets, and pairwise related
outputs. -/
def stateRel (st st' : RunState) : Prop :=
  st.stats = st'.stats ∧ st.seenSlugs = st'.seenSlugs ∧ outRel st.outputs st'.outputs

/-- The relation between the two `process_file` outcomes of one document
under two run timestamps: the same shape, with entities and reviews related
by `exceptTs`. -/
def pfRel : Except Unit (Option ProcResult) → Except Unit (Option ProcResult) → Prop
  | .error _, .error _ => True
  | .ok none, .ok none => True
  | .ok (some r), .ok (some r2) =>
      r.pageType = r2.pageType ∧ r.url = r2.url ∧ exceptTs r.entity r2.entity ∧
        List.Forall₂ exceptTs r.reviews r2.reviews
  | _, _ => False

/-- The slug values of an Except-carried output list (the review write loop
carries the partial output list in its error payload). -/
def blogSlugsE : Except (List (String × PyDict)) (List (String × PyDict)) → List Value
  | .ok o => blogSlugs o
  | .error o => blogSlugs o

/-- The loop invariant of the slug block: the written blog slugs are
pairwise distinct and each is recorded in the seen-slug set. -/
def slugInv (st : RunState) : Prop :=
  (blogSlugs st.outputs).Nodup ∧
    ∀ v ∈ blogSlugs st.outputs, pyMem v st.seenSlugs = true

/-! ## Concrete fixtures for witnesses and counterexamples -/

/-- An element carrying only text. -/
def textEl (t : String) : Element :=
  .mk t ("<el>" ++ t ++ "</el>") [] .badJson (fun _ => none) (fun _ => []) (fun _ => none)

/-- A document whose `select_one` serves the given table and whose other
queries find nothing. -/
def soupOne (entries : List (String × Element)) : Soup :=
  ⟨fun s => entries.lookup s, fun _ => [], fun _ => none⟩

/-- A canonical link element with the given href. -/
def linkEl (u : String) : Element :=
  .mk "" "" [("href", .vStr u)] .badJson (fun _ => none) (fun _ => []) (fun _ => none)

/-- A document whose only feature is a canonical link to the given URL. -/
def canonSoup (u : String) : Soup :=
  ⟨fun s => if s == "link[rel=\"canonical\"]" then some (linkEl u) else none,
    fun _ => [], fun _ => none⟩

/-- A compiled regex matching every string at position 0 with no groups
(such as `re.compile(".*")`), used as a catch-all url_pattern. -/
def anyRegex : Regex := ⟨fun _ => some ⟨"", []⟩, fun _ => some ⟨"", []⟩⟩

/-- The behaviour of `re.search(r"(b?)", s)`: every string matches at
position 0; on a string not starting with b the optional group matches
empty. -/
def optGroupRegex : Regex :=
  ⟨fun s => if s.startsWith "b" then some ⟨"b", [some "b"]⟩ else some ⟨"", [some ""]⟩,
    fun _ => none⟩

/-- A selector schema with no field configurations and a single catch-all
blog_post detection rule. -/
def fxSchema : SelectorsSchema :=
  { fieldMaps := [], detection := [("blog_post", { url_pattern := some anyRegex })] }

/-- An entities schema declaring blog_post with primary key `slug`. -/
def fxEnt : EntitiesSchema := [("blog_post", { fields := [], primary_key := some "slug" })]

/-- A blog document: file path `pa`, canonical URL with last path segment
`a`. -/
def fxDocA : Doc := ⟨"pa", canonSoup "https://x/a/"⟩

/-- A second blog document with the same derived base slug `a` but a
different source path and canonical URL. -/
def fxDocB : Doc := ⟨"pb", canonSoup "https://y/a/"⟩

/-- A document engineered so that its derived slug equals the hash-suffixed
slug the third document will receive: its canonical URL ends in the segment
`a-<sha1(p3)[:8]>`. -/
def fxDocH : Doc := ⟨"p1", canonSoup ("https://x/a-" ++ sha1hex8 "p3" ++ "/")⟩

/-- A plain blog document deriving slug `a` from path segment `a`. -/
def fxDocI : Doc := ⟨"p2", canonSoup "https://x/a/"⟩

/-- A blog document deriving the same base slug `a`, with source path `p3`
(its collision suffix is sha1 of `p3`, since no canonical_url field is
extracted under the empty field schema). -/
def fxDocJ : Doc := ⟨"p3", canonSoup "https://y/a/"⟩

/-- An entities schema declaring blog_post with primary key `id` (for the
duplicate-key fixtures). -/
def fxEnt9 : EntitiesSchema := [("blog_post", { fields := [], primary_key := some "id" })]

/-- A record whose primary key `id` is present but empty. -/
def fxRec9 : PyDict := [("id", .vStr "")]

/-- Two lines both carrying the present, empty primary-key value. -/
def fxLines9 : List JsonLine := [.record fxRec9, .record fxRec9]

/-- A record carrying primary key `doc-42`. -/
def fxRec9d : PyDict := [("id", .vStr "doc-42")]

/-- Two occurrences of `doc-42` separated by a blank line (so the second
occurrence sits on 1-based line 3). -/
def fxLines9d : List JsonLine := [.record fxRec9d, .blank, .record fxRec9d]

/-- The document of the ordered-selector example: selector A finds an
element with empty text, selector B finds the text X. -/
def fxSoupC1 : Soup := soupOne [("A", textEl ""), ("B", textEl "X")]

/-- The field configuration of the ordered-selector example. -/
def fxCfgC1 : FieldConfig := { selectors := [.plain "A", .plain "B"], fallback := .vStr "FB" }

/-- A document containing only an element at selector B. -/
def fxSoupC4 : Soup := soupOne [("B", textEl "X")]

/-- An exists-method field whose first selector finds nothing (resolving to
the boolean false) and whose second selector would resolve the text X. -/
def fxCfgC4 : FieldConfig :=
  { method := "exists",
    selectors := [.plain "A", .conf (some "B") (some "text") none],
    fallback := .vStr "FB" }

/-- The entity extracted from fxDocA (empty field schema, slug `a`). -/
def fxEntA : PyDict :=
  [("slug", .vStr "a"), ("extracted_at", .vStr "T"), ("source_file", .vStr "pa")]

/-- The entity extracted from fxDocB (empty field schema, slug `a`). -/
def fxEntB : PyDict :=
  [("slug", .vStr "a"), ("extracted_at", .vStr "T"), ("source_file", .vStr "pb")]

/-! # Theorems

Shared structural lemmas first, then one theorem per claim (with its witness
or counterexample where required). -/

instance {ε α : Type} [DecidableEq ε] [DecidableEq α] : DecidableEq (Except ε α) :=
  fun a b =>
    match a, b with
    | .ok x, .ok y =>
        if h : x = y then isTrue (by rw [h]) else isFalse (by simp [h])
    | .error x, .error y =>
        if h : x = y then isTrue (by rw [h]) else isFalse (by simp [h])
    | .ok _, .error _ => isFalse (by simp)
    | .error _, .ok _ => isFalse (by simp)

theorem dictGet_dictSet_self (d : PyDict) (k : String) (v : Value) :
    dictGet (dictSet d k v) k = some v := by
  induction d with
  | nil => simp [dictGet, dictSet, assocLookup]
  | cons hd tl ih =>
      obtain ⟨k2, w⟩ := hd
      by_cases h : k2 = k
      · subst h
        simp [dictGet, dictSet, assocLookup]
      · simpa [dictGet, dictSet, assocLookup, h] using ih

theorem dictGet_dictSet_ne (d : PyDict) (k k2 : String) (v : Value) (h : k2 ≠ k) :
    dictGet (dictSet d k v) k2 = dictGet d k2 := by
  induction d with
  | nil =>
      have hne : ¬k = k2 := fun hh => h hh.symm
      simp [dictGet, dictSet, assocLookup, hne]
  | cons hd tl ih =>
      obtain ⟨k3, w⟩ := hd
      by_cases h3 : k3 = k
      · subst h3
        have hne : ¬k3 = k2 := fun hh => h hh.symm
        simp [dictGet, dictSet, assocLookup, hne]
      · by_cases h32 : k3 = k2
        · simp [dictGet, dictSet, assocLookup, h3, h32, h]
        · simpa [dictGet, dictSet, assocLookup, h3, h32] using ih

theorem pyMem_append (v : Value) (a b : List Value) :
    pyMem v (a ++ b) = (pyMem v a || pyMem v b) := by
  simp [pyMem, List.any_append]

theorem pyEq_vStr_refl (s : String) : pyEq (.vStr s) (.vStr s) = true := by
  simp [pyEq]

theorem blogSlugs_append (a b : List (String × PyDict)) :
    blogSlugs (a ++ b) = blogSlugs a ++ blogSlugs b := by
  simp [blogSlugs, List.filterMap_append]

/-- Claim C10: for every target type string t, `_convert_type(None, t)` and
`_convert_type("", t)` are None: a null or empty-string input is mapped to
null before any conversion is attempted. -/
theorem convert_type_null_and_empty (t : String) :
    convert_type .vNull t = .ok .vNull ∧ convert_type (.vStr "") t = .ok .vNull :=
  ⟨rfl, rfl⟩

/-- Claim C6: for a field declared required whose value is null, the empty
string, or an empty list, `validate_field` emits exactly the single missing
required field error and performs no further type, format, range, or enum
checks. -/
theorem validate_field_required_empty (fieldName : String) (v : Value) (fs : FieldVSchema)
    (hreq : fs.required = true)
    (hempty : v = .vNull ∨ v = .vStr "" ∨ v = .vList []) :
    validate_field fieldName v fs =
      ["Required field \x27" ++ fieldName ++ "\x27 is missing or empty"] := by
  rcases hempty with h | h | h <;> subst h <;>
    simp [validate_field, hreq, pyEq, pyEqList, BEq.beq, Value.beq]

/-- Witness for C6 at a concrete field. -/
theorem validate_field_required_empty_use :
    validate_field "title" (.vStr "") { required := true, type := "string" } =
      ["Required field \x27title\x27 is missing or empty"] :=
  validate_field_required_empty "title" (.vStr "") { required := true, type := "string" }
    rfl (Or.inr (Or.inl rfl))

/-- Counterexample to claim C5 as stated ("type coercion never raises ...
on conversion failure the original (uncoerced) value is returned
unchanged"): coercing the string inf to integer raises (int of an infinite
float raises OverflowError, which the ValueError/TypeError handler does not
catch), and on the failing input a,bc the returned value is the
comma-stripped abc, not the original. -/
theorem convert_type_not_total :
    convert_type (.vStr "inf") "integer" = .error () ∧
      convert_type (.vStr "a,bc") "integer" = .ok (.vStr "abc") ∧
      Value.vStr "abc" ≠ .vStr "a,bc" := by
  refine ⟨by with_unfolding_all rfl, by with_unfolding_all rfl, by decide⟩

/-- Claim C5 as amended: the concrete coercions hold
(`_convert_type("1,234", "integer") = 1234`,
`_convert_type("abc", "integer")` keeps the string), coercion raises
exactly on integer targets whose float conversion is infinite, and on any
other failing string-to-integer conversion the result is the original
string with commas stripped. -/
theorem pyEq_vStr_empty_iff (v : Value) : pyEq v (.vStr "") = true ↔ v = .vStr "" := by
  cases v <;> simp [pyEq, numOf]

theorem beq_vNull_iff (v : Value) : (v == Value.vNull) = true ↔ v = .vNull := by
  have := Value.beq_iff_eq_value v .vNull
  exact this

theorem convert_type_ok_of_ne_integer (v : Value) (t : String) (ht : t ≠ "integer") :
    ∃ r, convert_type v t = .ok r := by
  have ht' : (t == "integer") = false := by
    simp [ht]
  unfold convert_type
  simp only [ht', Bool.false_eq_true, if_false]
  repeat (first | exact ⟨_, rfl⟩ | split)

theorem convert_type_integer_error_iff (v : Value) :
    convert_type v "integer" = .error () ↔ convRaises v = true := by
  by_cases h0 : (v == Value.vNull || pyEq v (.vStr "")) = true
  · have hv : v = .vNull ∨ v = .vStr "" := by
      rcases (by simpa using h0 :
        (v == Value.vNull) = true ∨ pyEq v (.vStr "") = true) with h | h
      · exact Or.inl ((beq_vNull_iff v).mp h)
      · exact Or.inr ((pyEq_vStr_empty_iff v).mp h)
    rcases hv with h | h <;> subst h <;> decide
  · have h0' : (v == Value.vNull || pyEq v (.vStr "")) = false := by
      simpa using h0
    cases v with
    | vStr s =>
        have hs : s ≠ "" := by
          rintro rfl
          simp [pyEq] at h0'
        rcases hp : pyFloatParse (stripCommas s) with _ | f
        · simp_all [convert_type, convRaises, hp]
        · cases f <;> simp_all [convert_type, convRaises, hp]
    | vFloat f =>
        cases f <;> simp_all [convert_type, convRaises, toFloatValue]
    | _ => simp_all [convert_type, convRaises, toFloatValue]

/-- Claim C5 as amended: the concrete coercions hold
(`_convert_type("1,234", "integer") = 1234` and
`_convert_type("abc", "integer")` keeps the string), coercion raises
exactly on integer targets whose float conversion is infinite, and on any
other failing string-to-integer conversion the result is the original
string with commas stripped. -/
theorem convert_type_amended :
    convert_type (.vStr "1,234") "integer" = .ok (.vInt 1234) ∧
      convert_type (.vStr "abc") "integer" = .ok (.vStr "abc") ∧
      (∀ v t, convert_type v t = .error () ↔ (t = "integer" ∧ convRaises v = true)) ∧
      (∀ s, s ≠ "" → pyFloatParse (stripCommas s) = none →
        convert_type (.vStr s) "integer" = .ok (.vStr (stripCommas s))) := by
  refine ⟨by with_unfolding_all rfl, by with_unfolding_all rfl, ?_, ?_⟩
  · intro v t
    by_cases ht : t = "integer"
    · subst ht
      simpa using convert_type_integer_error_iff v
    · obtain ⟨r, hr⟩ := convert_type_ok_of_ne_integer v t ht
      simp [hr, ht]
  · intro s hs hp
    have hse : pyEq (.vStr s) (.vStr "") = false := by
      simp [pyEq, hs]
    simp [convert_type, hse, hp, BEq.beq, Value.beq]

/-- Witness for the amended C5: the failure branch applied at the concrete
comma-carrying input. -/
theorem convert_type_amended_use :
    convert_type (.vStr "a,bc") "integer" = .ok (.vStr (stripCommas "a,bc")) :=
  convert_type_amended.2.2.2 "a,bc" (by decide) (by with_unfolding_all rfl)

/-- Counterexample to claim C8 as stated ("for a list value ... falsy
results are dropped from the returned list"): applying the pattern `(b?)`
(modelled by `optGroupRegex`) to the list `["a"]` produces the falsy result
empty-string for the element `a`, and that falsy result is kept — the code
filters falsy INPUT elements before applying the pattern, it does not drop
falsy results. -/
theorem apply_pattern_keeps_falsy_results :
    applyPattern optGroupRegex (.vList [.vStr "a"]) = .vList [.vStr ""] ∧
      pyTruthy (.vStr "") = false := by
  refine ⟨by with_unfolding_all rfl, by decide⟩

theorem applyPatternList_eq_filter_map (p : Regex) (xs : List Value) :
    applyPatternList p xs = (xs.filter pyTruthy).map (applyPattern p) := by
  induction xs with
  | nil => rfl
  | cons v rest ih =>
      by_cases hv : pyTruthy v = true
      · simp [applyPatternList, hv, ih]
      · have hv' : pyTruthy v = false := by simpa using hv
        simp [applyPatternList, hv', ih]

/-- Claim C8 as amended: for a string value the configured behaviour holds
exactly as claimed (first capture group when the pattern has groups, whole
match otherwise, value unchanged when the regex does not match); for a list
value the pattern is applied element-wise to the truthy elements — falsy
ELEMENTS are dropped before application, while falsy results of the
application are kept; other value shapes pass through unchanged. -/
theorem apply_pattern_amended :
    (∀ (p : Regex) (s : String) (m : RMatch), p.search s = some m → m.groups ≠ [] →
      applyPattern p (.vStr s) =
        (match m.groups.headD none with
         | some g => .vStr g
         | none => .vNull)) ∧
    (∀ (p : Regex) (s : String) (m : RMatch), p.search s = some m → m.groups = [] →
      applyPattern p (.vStr s) = .vStr m.group0) ∧
    (∀ (p : Regex) (s : String), p.search s = none → applyPattern p (.vStr s) = .vStr s) ∧
    (∀ (p : Regex) (xs : List Value),
      applyPattern p (.vList xs) = .vList ((xs.filter pyTruthy).map (applyPattern p))) ∧
    (∀ (p : Regex) (v : Value), notStrOrList v = true → applyPattern p v = v) := by
  refine ⟨?_, ?_, ?_, ?_, ?_⟩
  · intro p s m hm hg
    have hg' : m.groups.isEmpty = false := by
      simpa [List.isEmpty_eq_false] using hg
    simp [applyPattern, hm, hg']
  · intro p s m hm hg
    simp [applyPattern, hm, hg]
  · intro p s hm
    simp [applyPattern, hm]
  · intro p xs
    simp [applyPattern, applyPatternList_eq_filter_map]
  · intro p v hv
    cases v <;> simp_all [applyPattern, notStrOrList]

/-- Witness for the amended C8: the string case with a participating group
and the list case, at concrete inputs. -/
theorem apply_pattern_amended_use :
    applyPattern optGroupRegex (.vStr "bx") = .vStr "b" ∧
      applyPattern optGroupRegex (.vList [.vStr "", .vStr "b"]) =
        .vList (([Value.vStr "", Value.vStr "b"].filter pyTruthy).map
          (applyPattern optGroupRegex)) :=
  ⟨by
    have h := apply_pattern_amended.1 optGroupRegex "bx" ⟨"b", [some "b"]⟩
      (by with_unfolding_all rfl) (by decide)
    simpa using h,
    apply_pattern_amended.2.2.2.1 optGroupRegex [Value.vStr "", Value.vStr "b"]⟩

/-- Counterexample to claim C4 as stated ("every found-but-falsy resolved
value ... does not stop the selector iteration and the field falls through
to its configured fallback"): with an exists-method field, the first
selector resolves to the boolean false — found and falsy — yet the
iteration stops there (the second selector, which would resolve the text X,
is never consulted) and the result is the boolean false rather than the
configured fallback FB. -/
theorem extract_field_false_stops :
    extract_field fxSoupC4 fxCfgC4 "" = .ok (.vBool false) ∧
      stepSel fxSoupC4 fxCfgC4 .vNull (.plain "A") = .vBool false ∧
      pyTruthy (.vBool false) = false ∧
      fxCfgC4.fallback = .vStr "FB" ∧
      Value.vBool false ≠ .vStr "FB" ∧
      Value.vBool false ≠ .vStr "X" := by
  refine ⟨by with_unfolding_all rfl, by with_unfolding_all rfl, by decide, by rfl,
    by decide, by decide⟩

/-- Claim C4 as amended: the per-selector success test treats None, the
empty string and the empty list — and only those — as not found, continuing
the iteration; the boolean false (the exists method) passes the success
test and stops the iteration; after the loop only a final None falls
through to the configured fallback, while a final empty string is coerced
to null and a final empty list survives type conversion for the default
string type. -/
theorem extract_field_falsy_amended :
    (∀ v : Value, breakTest v = false ↔ (v = .vNull ∨ v = .vStr "" ∨ v = .vList [])) ∧
    breakTest (.vBool false) = true ∧
    (∀ (soup : Soup) (cfg : FieldConfig) (v0 : Value) (s : SelectorSpec)
        (rest : List SelectorSpec), breakTest (stepSel soup cfg v0 s) = false →
      selLoop soup cfg v0 (s :: rest) = selLoop soup cfg (stepSel soup cfg v0 s) rest) ∧
    (∀ (soup : Soup) (cfg : FieldConfig) (v0 : Value) (s : SelectorSpec)
        (rest : List SelectorSpec), breakTest (stepSel soup cfg v0 s) = true →
      selLoop soup cfg v0 (s :: rest) = stepSel soup cfg v0 s) ∧
    (∀ cfg : FieldConfig, finalizeVal cfg .vNull = .ok cfg.fallback) ∧
    (∀ cfg : FieldConfig, finalizeVal cfg (.vStr "") = .ok .vNull) ∧
    (∀ cfg : FieldConfig, cfg.type = "string" → finalizeVal cfg (.vList []) = .ok (.vList [])) := by
  refine ⟨?_, by decide, ?_, ?_, ?_, ?_, ?_⟩
  · intro v
    cases v with
    | vStr s =>
        by_cases hs : s = "" <;> simp [breakTest, pyEq, hs, numOf, BEq.beq, Value.beq]
    | vList xs =>
        cases xs <;> simp [breakTest, pyEq, pyEqList, numOf, BEq.beq, Value.beq]
    | vFloat f => cases f <;> simp [breakTest, pyEq, pyFloatEq, numOf, BEq.beq, Value.beq]
    | _ => simp [breakTest, pyEq, numOf, BEq.beq, Value.beq]
  · intro soup cfg v0 s rest h
    simp [selLoop, h]
  · intro soup cfg v0 s rest h
    simp [selLoop, h]
  · intro cfg
    cases hp : cfg.pattern <;> simp [finalizeVal, hp, pyTruthy, BEq.beq, Value.beq]
  · intro cfg
    cases hp : cfg.pattern <;>
      simp [finalizeVal, hp, pyTruthy, BEq.beq, Value.beq, convert_type, pyEq]
  · intro cfg ht
    cases hp : cfg.pattern <;>
      simp [finalizeVal, hp, ht, pyTruthy, BEq.beq, Value.beq, convert_type, pyEq, pyEqList,
        numOf]

/-- Witness for the amended C4 at concrete inputs: an empty-string step
continues the loop, a false step stops it, and the three finalisation
behaviours at a concrete configuration. -/
theorem extract_field_falsy_amended_use :
    breakTest (.vStr "") = false ∧
      selLoop fxSoupC1 fxCfgC1 .vNull (.plain "A" :: [.plain "B"]) =
        selLoop fxSoupC1 fxCfgC1 (stepSel fxSoupC1 fxCfgC1 .vNull (.plain "A")) [.plain "B"] ∧
      selLoop fxSoupC4 fxCfgC4 .vNull (.plain "A" :: [.conf (some "B") (some "text") none]) =
        stepSel fxSoupC4 fxCfgC4 .vNull (.plain "A") ∧
      finalizeVal fxCfgC1 .vNull = .ok fxCfgC1.fallback ∧
      finalizeVal fxCfgC1 (.vStr "") = .ok .vNull ∧
      finalizeVal fxCfgC1 (.vList []) = .ok (.vList []) := by
  refine ⟨(extract_field_falsy_amended.1 (.vStr "")).mpr (Or.inr (Or.inl rfl)),
    extract_field_falsy_amended.2.2.1 fxSoupC1 fxCfgC1 .vNull (.plain "A") [.plain "B"]
      (by with_unfolding_all rfl),
    extract_field_falsy_amended.2.2.2.1 fxSoupC4 fxCfgC4 .vNull (.plain "A")
      [.conf (some "B") (some "text") none] (by with_unfolding_all rfl),
    extract_field_falsy_amended.2.2.2.2.1 fxCfgC1,
    extract_field_falsy_amended.2.2.2.2.2.1 fxCfgC1,
    extract_field_falsy_amended.2.2.2.2.2.2 fxCfgC1 rfl⟩

theorem selLoopNB_append (soup : Soup) (cfg : FieldConfig) (v v0 : Value)
    (pre rest : List SelectorSpec) (h : selLoopNB soup cfg v pre = some v0) :
    selLoop soup cfg v (pre ++ rest) = selLoop soup cfg v0 rest := by
  induction pre generalizing v with
  | nil =>
      simp [selLoopNB] at h
      subst h
      rfl
  | cons s pre ih =>
      simp only [selLoopNB] at h
      by_cases hb : breakTest (stepSel soup cfg v s) = true
      · simp [hb] at h
      · have hb' : breakTest (stepSel soup cfg v s) = false := by simpa using hb
        simp only [hb', Bool.false_eq_true, if_false] at h
        simpa [selLoop, hb'] using ih (stepSel soup cfg v s) h

/-- Claim C1: for a field whose method runs the selector loop, the selectors
are evaluated in exactly the authored order and the first selector whose
resolved value passes the success test decides the field: whenever the
declared selector list splits as pre ++ [s] ++ post with no selector of pre
passing the success test and s resolving to a passing value v, the field
value is the post-processing of v alone — the hypotheses never constrain
`post`, so the selectors after s are never consulted.  In particular (see
the witness) for selectors [A, B] where A yields an empty result and B
yields X, resolution returns X. -/
theorem extract_field_first_success (soup : Soup) (cfg : FieldConfig) (url : String)
    (pre post : List SelectorSpec) (s : SelectorSpec) (v0 v : Value)
    (hm1 : cfg.method ≠ "from_url") (hm2 : cfg.method ≠ "canonical_url")
    (hm3 : cfg.method ≠ "json_ld")
    (hsel : cfg.selectors = pre ++ s :: post)
    (hpre : selLoopNB soup cfg .vNull pre = some v0)
    (hstep : stepSel soup cfg v0 s = v)
    (hbreak : breakTest v = true) :
    extract_field soup cfg url = finalizeVal cfg v := by
  have hm1' : (cfg.method == "from_url") = false := by simp [hm1]
  have hm2' : (cfg.method == "canonical_url") = false := by simp [hm2]
  have hm3' : (cfg.method == "json_ld") = false := by simp [hm3]
  unfold extract_field
  simp only [hm1', hm2', hm3', Bool.false_eq_true, if_false]
  rw [hsel, selLoopNB_append soup cfg .vNull v0 pre (s :: post) hpre]
  simp [selLoop, hstep, hbreak]

/-- Witness for C1: the concrete example from the spec — selectors [A, B]
where A resolves to the empty string and B to the text X; the field resolves
to X. -/
theorem extract_field_first_success_use :
    extract_field fxSoupC1 fxCfgC1 "" = .ok (.vStr "X") := by
  have h := extract_field_first_success fxSoupC1 fxCfgC1 "" [.plain "A"] [] (.plain "B")
    (.vStr "") (.vStr "X") (by decide) (by decide) (by decide) rfl
    (by with_unfolding_all rfl) (by with_unfolding_all rfl) (by decide)
  rw [h]
  with_unfolding_all rfl

/-- Claim C7: when two processed blog_post entities derive the same base
slug, the first keeps the base slug, the second receives the base slug
suffixed with a dash and the first 8 hex chars of sha1 of its disambiguator
(canonical URL, or source file path when there is no canonical URL), and the
run slug-collision counter ends at exactly 1. -/
theorem process_directory_slug_collision (schema : SelectorsSchema) (m now : String)
    (d1 d2 : Doc) (u1 u2 : String) (e1 e2 : PyDict) (s u : String)
    (h1 : process_file schema m now d1 = .ok (some ⟨"blog_post", u1, e1, []⟩))
    (h2 : process_file schema m now d2 = .ok (some ⟨"blog_post", u2, e2, []⟩))
    (hs1 : dictGet e1 "slug" = some (.vStr s))
    (hs2 : dictGet e2 "slug" = some (.vStr s))
    (hu : disambiguator e2 = .ok u)
    (hd1 : jsonDumpable (.vObj e1) = true)
    (hd2 : jsonDumpable (.vObj (dictSet e2 "slug" (.vStr (s ++ "-" ++ sha1hex8 u)))) = true) :
    blogSlugs (process_directory schema m now [d1, d2]).outputs =
        [.vStr s, .vStr (s ++ "-" ++ sha1hex8 u)] ∧
      (process_directory schema m now [d1, d2]).stats.slug_collisions = 1 := by
  constructor <;>
    simp [process_directory, runInit, procStep, h1, h2, hs1, hs2, hu, hd1, hd2,
      slugAdjust, pyHashable, pyMem, pyEq, pyStrOf, seenInsert, procWrite, entityTypes,
      bumpType, blogSlugs, dictGet_dictSet_self]

/-- Witness for C7: two concrete blog documents both deriving base slug `a`;
the outputs carry slugs `a` and `a-<sha1("pb")[:8]>` and the collision
counter is 1 (the second document has no canonical_url field extracted, so
its disambiguator is its source path `pb`). -/
theorem process_directory_slug_collision_use :
    blogSlugs (process_directory fxSchema "m" "T" [fxDocA, fxDocB]).outputs =
        [.vStr "a", .vStr ("a" ++ "-" ++ sha1hex8 "pb")] ∧
      (process_directory fxSchema "m" "T" [fxDocA, fxDocB]).stats.slug_collisions = 1 :=
  process_directory_slug_collision fxSchema "m" "T" fxDocA fxDocB
    "https://x/a/" "https://y/a/" fxEntA fxEntB "a" "pb"
    (by with_unfolding_all rfl) (by with_unfolding_all rfl)
    (by with_unfolding_all rfl) (by with_unfolding_all rfl)
    (by with_unfolding_all rfl) (by with_unfolding_all rfl) (by with_unfolding_all rfl)

theorem extract_entity_blog_slug (schema : SelectorsSchema) (soup : Soup)
    (url p now : String) (e : PyDict)
    (h : extract_entity schema "blog_post" soup url p now = .ok e) :
    ∃ s, dictGet e "slug" = some (.vStr s) := by
  unfold extract_entity at h
  cases hc : extract_entity_core schema "blog_post" soup url with
  | error u => rw [hc] at h; exact Except.noConfusion h
  | ok base =>
      rw [hc] at h
      injection h with h
      subst h
      unfold extract_entity_core at hc
      rw [if_pos (by rfl : (("blog_post" : String) == "blog_post") = true)] at hc
      split at hc
      · exact Except.noConfusion hc
      next slug heq =>
        injection hc with hc
        subst hc
        refine ⟨slug, ?_⟩
        rw [dictGet_dictSet_ne _ _ _ _ (by decide), dictGet_dictSet_ne _ _ _ _ (by decide),
          dictGet_dictSet_self]

theorem process_file_blog_slug (schema : SelectorsSchema) (m now : String) (d : Doc)
    (r : ProcResult) (h : process_file schema m now d = .ok (some r))
    (hpt : r.pageType = "blog_post") :
    ∃ s, dictGet r.entity "slug" = some (.vStr s) := by
  unfold process_file at h
  cases hu : urlOf m d with
  | error u => simp [hu] at h
  | ok url =>
      simp only [hu] at h
      cases hd : detect_page_type schema.detection url d.soup with
      | error u => simp [hd] at h
      | ok o =>
          simp only [hd] at h
          cases o with
          | none => simp at h
          | some pt =>
              cases he : extract_entity schema pt d.soup url d.path now with
              | error u => simp [he] at h
              | ok entity =>
                  simp only [he] at h
                  injection h with h
                  injection h with h
                  subst h
                  have hpt' : pt = "blog_post" := hpt
                  subst hpt'
                  exact extract_entity_blog_slug schema d.soup url d.path now entity he

theorem blogSlugs_single (t : String) (e : PyDict) :
    blogSlugs [(t, e)] = if t == "blog_post" then (dictGet e "slug").toList else [] := by
  by_cases h : (t == "blog_post") = true
  · have ht : t = "blog_post" := by simpa using h
    subst ht
    cases hg : dictGet e "slug" <;> simp [blogSlugs, hg]
  · have ht : t ≠ "blog_post" := by simpa using h
    simp [blogSlugs, h, ht]

theorem writeReviewsAux_blogSlugs (rvs : List PyDict) (outs : List (String × PyDict)) :
    blogSlugsE (writeReviewsAux outs rvs) = blogSlugs outs := by
  induction rvs generalizing outs with
  | nil => rfl
  | cons rv rest ih =>
      unfold writeReviewsAux
      by_cases hj : jsonDumpable (.vObj rv) = true
      · rw [if_pos hj, ih, blogSlugs_append]
        simp [blogSlugs]
      · rw [if_neg hj]
        rfl

theorem procWrite_outputs (r : ProcResult) (entity : PyDict) (st : RunState) :
    (procWrite r entity st).seenSlugs = st.seenSlugs ∧
      (blogSlugs (procWrite r entity st).outputs = blogSlugs st.outputs ∨
        blogSlugs (procWrite r entity st).outputs =
          blogSlugs st.outputs ++ blogSlugs [(r.pageType, entity)]) := by
  unfold procWrite
  by_cases hct : entityTypes.contains r.pageType = true
  · by_cases hj : jsonDumpable (Value.vObj entity) = true
    · rw [if_pos hct, if_pos hj]
      dsimp only
      by_cases hre : r.reviews.isEmpty = true
      · rw [if_pos hre]
        exact ⟨rfl, Or.inr (blogSlugs_append st.outputs [(r.pageType, entity)])⟩
      · rw [if_neg hre]
        cases hw : writeReviewsAux (st.outputs ++ [(r.pageType, entity)]) r.reviews with
        | ok outs =>
            have h2 := writeReviewsAux_blogSlugs r.reviews (st.outputs ++ [(r.pageType, entity)])
            rw [hw] at h2
            have h3 : blogSlugs outs = blogSlugs (st.outputs ++ [(r.pageType, entity)]) := h2
            exact ⟨rfl, Or.inr (h3.trans (blogSlugs_append _ _))⟩
        | error outs =>
            have h2 := writeReviewsAux_blogSlugs r.reviews (st.outputs ++ [(r.pageType, entity)])
            rw [hw] at h2
            have h3 : blogSlugs outs = blogSlugs (st.outputs ++ [(r.pageType, entity)]) := h2
            exact ⟨rfl, Or.inr (h3.trans (blogSlugs_append _ _))⟩
    · rw [if_pos hct, if_neg hj]
      exact ⟨rfl, Or.inl rfl⟩
  · rw [if_neg hct]
    dsimp only
    by_cases hre : r.reviews.isEmpty = true
    · rw [if_pos hre]
      exact ⟨rfl, Or.inl rfl⟩
    · rw [if_neg hre]
      cases hw : writeReviewsAux st.outputs r.reviews with
      | ok outs =>
          have h2 := writeReviewsAux_blogSlugs r.reviews st.outputs
          rw [hw] at h2
          exact ⟨rfl, Or.inl h2⟩
      | error outs =>
          have h2 := writeReviewsAux_blogSlugs r.reviews st.outputs
          rw [hw] at h2
          exact ⟨rfl, Or.inl h2⟩

theorem slugInv_push (r : ProcResult) (entity : PyDict) (stats2 : RunStats) (st : RunState)
    (w : Value) (hold : slugInv st) (hw : dictGet entity "slug" = some w)
    (hwmem : pyMem w st.seenSlugs = false) (hrefl : pyEq w w = true) :
    slugInv (procWrite r entity
      { st with seenSlugs := seenInsert st.seenSlugs w, stats := stats2 }) := by
  obtain ⟨hseen, houts⟩ :=
    procWrite_outputs r entity { st with seenSlugs := seenInsert st.seenSlugs w, stats := stats2 }
  have hL : blogSlugs [(r.pageType, entity)] = [] ∨ blogSlugs [(r.pageType, entity)] = [w] := by
    rw [blogSlugs_single]
    by_cases hbp : (r.pageType == "blog_post") = true
    · rw [if_pos hbp, hw]
      exact Or.inr rfl
    · rw [if_neg hbp]
      exact Or.inl rfl
  have hseq : seenInsert st.seenSlugs w = st.seenSlugs ++ [w] := by
    rw [seenInsert, if_neg]
    simp [hwmem]
  constructor
  · rcases houts with h | h
    · rw [h]
      exact hold.1
    · rw [h]
      rcases hL with hL | hL
      · rw [hL]
        simpa using hold.1
      · rw [hL]
        refine List.Nodup.append hold.1 (List.nodup_singleton w) ?_
        intro a ha hb
        have hab : a = w := by simpa using hb
        subst hab
        exact absurd (hold.2 a ha) (by simp [hwmem])
  · intro v hv
    rw [hseen]
    show pyMem v (seenInsert st.seenSlugs w) = true
    rw [hseq, pyMem_append]
    rcases houts with h | h
    · rw [h] at hv
      have hv' : v ∈ blogSlugs st.outputs := hv
      rw [hold.2 v hv']
      rfl
    · rw [h] at hv
      rcases hL with hL | hL
      · rw [hL] at hv
        have hv' : v ∈ blogSlugs st.outputs := by simpa using hv
        rw [hold.2 v hv']
        rfl
      · rw [hL] at hv
        rcases List.mem_append.mp hv with hv1 | hv2
        · have hv' : v ∈ blogSlugs st.outputs := hv1
          rw [hold.2 v hv']
          rfl
        · have hvw : v = w := by simpa using hv2
          subst hvw
          simp [pyMem, hrefl]

theorem procStep_slugInv (schema : SelectorsSchema) (m now : String) (st : RunState) (d : Doc)
    (hinv : slugInv st) (hsc : stepSecondCollision schema m now st d = false) :
    slugInv (procStep schema m now st d) := by
  unfold procStep
  cases hpf : process_file schema m now d with
  | error u => exact hinv
  | ok o =>
    cases o with
    | none => exact hinv
    | some r =>
      dsimp only
      by_cases hbp : (r.pageType == "blog_post") = true
      · rw [if_pos hbp]
        obtain ⟨s, hs⟩ := process_file_blog_slug schema m now d r hpf (by simpa using hbp)
        rw [hs]
        dsimp only
        cases hadj : slugAdjust r.entity (Value.vStr s) st.seenSlugs st.stats.slug_collisions with
        | error u => exact hinv
        | ok trip =>
          obtain ⟨entity, seen, colls⟩ := trip
          rw [slugAdjust] at hadj
          rw [if_neg (show ¬((!pyHashable (Value.vStr s)) = true) by simp [pyHashable])] at hadj
          by_cases hmem : pyMem (Value.vStr s) st.seenSlugs = true
          · rw [if_pos hmem] at hadj
            cases hdis : disambiguator r.entity with
            | error u =>
                rw [hdis] at hadj
                exact Except.noConfusion hadj
            | ok u =>
                rw [hdis] at hadj
                have hadj2 : Except.ok (ε := Unit)
                    (dictSet r.entity "slug"
                        (Value.vStr (pyStrOf (Value.vStr s) ++ "-" ++ sha1hex8 u)),
                      seenInsert st.seenSlugs
                        (Value.vStr (pyStrOf (Value.vStr s) ++ "-" ++ sha1hex8 u)),
                      st.stats.slug_collisions + 1)
                    = Except.ok (entity, seen, colls) := hadj
                injection hadj2 with h0
                injection h0 with h1 h0
                injection h0 with h2 h3
                subst h1
                subst h2
                subst h3
                have hns : pyMem (Value.vStr (pyStrOf (Value.vStr s) ++ "-" ++ sha1hex8 u))
                    st.seenSlugs = false := by
                  unfold stepSecondCollision at hsc
                  rw [hpf] at hsc
                  dsimp only at hsc
                  rw [if_pos hbp, hs] at hsc
                  dsimp only at hsc
                  rw [if_pos (show (pyHashable (Value.vStr s) &&
                      pyMem (Value.vStr s) st.seenSlugs) = true by
                    simp [pyHashable, hmem]), hdis] at hsc
                  exact hsc
                exact slugInv_push r _ _ st _ hinv (dictGet_dictSet_self _ _ _) hns
                  (by simp [pyEq])
          · rw [if_neg hmem] at hadj
            injection hadj with h0
            injection h0 with h1 h0
            injection h0 with h2 h3
            subst h1
            subst h2
            subst h3
            exact slugInv_push r _ _ st _ hinv hs (by simpa using hmem) (by simp [pyEq])
      · rw [if_neg hbp]
        dsimp only
        show slugInv (procWrite r r.entity st)
        obtain ⟨hseen, houts⟩ := procWrite_outputs r r.entity st
        have hL : blogSlugs [(r.pageType, r.entity)] = [] := by
          rw [blogSlugs_single, if_neg hbp]
        constructor
        · rcases houts with h | h
          · rw [h]
            exact hinv.1
          · rw [h, hL]
            simpa using hinv.1
        · intro v hv
          rw [hseen]
          rcases houts with h | h
          · rw [h] at hv
            exact hinv.2 v hv
          · rw [h, hL] at hv
            exact hinv.2 v (by simpa using hv)

theorem foldl_slugInv (schema : SelectorsSchema) (m now : String) (docs : List Doc) :
    ∀ st : RunState, slugInv st → noSecondCollision schema m now st docs = true →
      slugInv (docs.foldl (procStep schema m now) st) := by
  induction docs with
  | nil =>
      intro st h _
      simpa using h
  | cons d ds ih =>
      intro st hinv hns
      simp only [noSecondCollision, Bool.and_eq_true] at hns
      obtain ⟨h1, h2⟩ := hns
      have h1' : stepSecondCollision schema m now st d = false := by simpa using h1
      simp only [List.foldl_cons]
      exact ih (procStep schema m now st d) (procStep_slugInv schema m now st d hinv h1') h2

/-- Counterexample to claim C2 as stated ("the slugs assigned to blog_post
entities are pairwise distinct"): a three-document corpus where the first
document derives slug `a-<sha1("p3")[:8]>`, the second derives `a`, and the
third also derives `a` — the third collides, is suffixed with sha1 of its
disambiguator `p3`, and the suffixed value equals the first slug; the
written blog slugs are not pairwise distinct (the second collision is never
rechecked). -/
theorem blog_slugs_not_unique :
    blogSlugs (process_directory fxSchema "m" "T" [fxDocH, fxDocI, fxDocJ]).outputs =
        [.vStr ("a-" ++ sha1hex8 "p3"), .vStr "a", .vStr ("a-" ++ sha1hex8 "p3")] ∧
      ¬ (blogSlugs (process_directory fxSchema "m" "T" [fxDocH, fxDocI, fxDocJ]).outputs).Nodup := by
  have he : blogSlugs (process_directory fxSchema "m" "T" [fxDocH, fxDocI, fxDocJ]).outputs =
      [.vStr ("a-" ++ sha1hex8 "p3"), .vStr "a", .vStr ("a-" ++ sha1hex8 "p3")] := by
    with_unfolding_all rfl
  refine ⟨he, ?_⟩
  rw [he]
  simp

/-- Claim C2 as amended: within one run, provided no processing step hits
the second-collision case (a suffixed slug that is itself already in the
seen set — the case §9 records as not specially handled), the slugs of the
blog_post records written to output are pairwise distinct. -/
theorem blog_slugs_unique_amended (schema : SelectorsSchema) (m now : String) (docs : List Doc)
    (h : noSecondCollision schema m now (runInit docs) docs = true) :
    (blogSlugs (process_directory schema m now docs).outputs).Nodup := by
  have hinit : slugInv (runInit docs) := by
    constructor
    · simp [runInit, blogSlugs]
    · intro v hv
      simp [runInit, blogSlugs] at hv
  exact (foldl_slugInv schema m now docs (runInit docs) hinit h).1

/-- Witness for the amended C2: a two-document run with one collision and no
second collision; the written blog slugs are pairwise distinct. -/
theorem blog_slugs_unique_amended_use :
    noSecondCollision fxSchema "m" "T" (runInit [fxDocA, fxDocB]) [fxDocA, fxDocB] = true ∧
      (blogSlugs (process_directory fxSchema "m" "T" [fxDocA, fxDocB]).outputs).Nodup :=
  ⟨by with_unfolding_all rfl,
    blog_slugs_unique_amended fxSchema "m" "T" [fxDocA, fxDocB] (by with_unfolding_all rfl)⟩

theorem PyRat.same_trans (x y z : PyRat) (hy : y.den ≠ 0)
    (h1 : x.same y = true) (h2 : y.same z = true) : x.same z = true := by
  simp only [PyRat.same, beq_iff_eq] at h1 h2 ⊢
  have hyz : (y.den : ℤ) ≠ 0 := by exact_mod_cast hy
  have h3 : (x.num * z.den) * y.den = (z.num * x.den) * y.den := by
    calc (x.num * z.den) * y.den = (x.num * y.den) * z.den := by ring
      _ = (y.num * x.den) * z.den := by rw [h1]
      _ = (y.num * z.den) * x.den := by ring
      _ = (z.num * y.den) * x.den := by rw [h2]
      _ = (z.num * x.den) * y.den := by ring
  exact mul_right_cancel₀ hyz h3

theorem pyFloatEq_trans (x y z : PyFloat) (hy : floatWf y)
    (h1 : pyFloatEq x y = true) (h2 : pyFloatEq y z = true) : pyFloatEq x z = true := by
  cases x <;> cases y <;> cases z <;> simp_all [pyFloatEq, floatWf]
  exact PyRat.same_trans _ _ _ hy h1 h2

theorem numOf_wf (b : Value) (hb : pkWf b = true) (y : PyFloat) (hy : numOf b = some y) :
    floatWf y := by
  cases b with
  | vBool bb =>
      have hy' : y = .finite (.ofNat (if bb then 1 else 0)) := by
        simpa [numOf] using hy.symm
      subst hy'
      cases bb <;> simp [PyRat.ofNat, floatWf]
  | vInt n =>
      have hy' : y = .finite (.ofInt n) := by simpa [numOf] using hy.symm
      subst hy'
      simp [PyRat.ofInt, floatWf]
  | vFloat f =>
      have hy' : f = y := by simpa [numOf] using hy
      subst hy'
      cases f with
      | finite q => simpa [pkWf, bne, floatWf] using hb
      | inf => trivial
      | ninf => trivial
      | nan => trivial
  | vNull => simp [numOf] at hy
  | vStr s => simp [numOf] at hy
  | vList l => simp [numOf] at hy
  | vObj l => simp [numOf] at hy
  | vDatetime s => simp [numOf] at hy

theorem pyEq_num_false_left (a b : Value) (y : PyFloat)
    (ha : numOf a = none) (hb : numOf b = some y) : pyEq a b = false := by
  cases a <;> cases b <;> simp_all [pyEq, numOf]

theorem pyEq_num_false_right (a b : Value) (x : PyFloat)
    (ha : numOf a = some x) (hb : numOf b = none) : pyEq a b = false := by
  cases a <;> cases b <;> simp_all [pyEq, numOf]

theorem pyEq_eq_num (a b : Value) (x y : PyFloat)
    (ha : numOf a = some x) (hb : numOf b = some y) : pyEq a b = pyFloatEq x y := by
  cases a <;> cases b <;> simp_all [pyEq, numOf]

theorem pyEq_trans (a b c : Value) (hb : pkWf b = true)
    (h1 : pyEq a b = true) (h2 : pyEq b c = true) : pyEq a c = true := by
  cases hb1 : numOf b with
  | some y =>
      cases ha1 : numOf a with
      | none =>
          rw [pyEq_num_false_left a b y ha1 hb1] at h1
          exact Bool.noConfusion h1
      | some x =>
          cases hc1 : numOf c with
          | none =>
              rw [pyEq_num_false_right b c y hb1 hc1] at h2
              exact Bool.noConfusion h2
          | some z =>
              rw [pyEq_eq_num a b x y ha1 hb1] at h1
              rw [pyEq_eq_num b c y z hb1 hc1] at h2
              rw [pyEq_eq_num a c x z ha1 hc1]
              exact pyFloatEq_trans x y z (numOf_wf b hb y hb1) h1 h2
  | none =>
      cases b with
      | vNull => cases a <;> cases c <;> simp_all [pyEq, numOf]
      | vStr s => cases a <;> cases c <;> simp_all [pyEq, numOf]
      | vDatetime s => cases a <;> cases c <;> simp_all [pyEq, numOf]
      | vList l => simp [pkWf] at hb
      | vObj l => simp [pkWf] at hb
      | vBool bb => simp [numOf] at hb1
      | vInt n => simp [numOf] at hb1
      | vFloat f => simp [numOf] at hb1

theorem pyMem_seenInsert (seen : List Value) (pkv v : Value) (hp : pkWf pkv = true) :
    pyMem v (seenInsert seen pkv) = (pyMem v seen || pyEq v pkv) := by
  by_cases hm : pyMem pkv seen = true
  · rw [seenInsert, if_pos hm]
    by_cases he : pyEq v pkv = true
    · rw [he, Bool.or_true]
      rw [pyMem, List.any_eq_true] at hm
      obtain ⟨w, hw, hww⟩ := hm
      rw [pyMem, List.any_eq_true]
      exact ⟨w, hw, pyEq_trans v pkv w hp he hww⟩
    · have he' : pyEq v pkv = false := by simpa using he
      rw [he', Bool.or_false]
  · rw [seenInsert, if_neg hm, pyMem_append]
    simp [pyMem]

theorem filterMap_ext {α β : Type} (f g : α → Option β) (l : List α)
    (h : ∀ a, f a = g a) : l.filterMap f = l.filterMap g := by
  induction l with
  | nil => rfl
  | cons a l ih => rw [List.filterMap_cons, List.filterMap_cons, h a, ih]

theorem truthyPkAt_succ (p : String) (l : JsonLine) (rest : List JsonLine) (i : Nat) :
    truthyPkAt p (l :: rest) (i + 1) = truthyPkAt p rest i := rfl

theorem dupSpec_fun_succ_skip (p : String) (l : JsonLine) (rest : List JsonLine)
    (seen : List Value) (n i : Nat) (h0 : truthyPkAt p (l :: rest) 0 = none) :
    (match truthyPkAt p (l :: rest) (i + 1) with
     | some v =>
         if pyMem v seen || (List.range (i + 1)).any (fun j =>
             match truthyPkAt p (l :: rest) j with
             | some w => pyEq v w
             | none => false)
         then some ((i + 1) + n, v)
         else none
     | none => none)
    = (match truthyPkAt p rest i with
       | some v =>
           if pyMem v seen || (List.range i).any (fun j =>
               match truthyPkAt p rest j with
               | some w => pyEq v w
               | none => false)
           then some (i + (n + 1), v)
           else none
       | none => none) := by
  rw [truthyPkAt_succ]
  cases hv : truthyPkAt p rest i with
  | none => rfl
  | some v =>
      show (if pyMem v seen || (List.range (i + 1)).any (fun j =>
            match truthyPkAt p (l :: rest) j with
            | some w => pyEq v w
            | none => false)
          then some ((i + 1) + n, v)
          else none)
        = (if pyMem v seen || (List.range i).any (fun j =>
              match truthyPkAt p rest j with
              | some w => pyEq v w
              | none => false)
            then some (i + (n + 1), v)
            else none)
      have hc : (List.range (i + 1)).any (fun j =>
            match truthyPkAt p (l :: rest) j with
            | some w => pyEq v w
            | none => false)
          = (List.range i).any (fun j =>
            match truthyPkAt p rest j with
            | some w => pyEq v w
            | none => false) := by
        rw [List.range_succ_eq_map, List.any_cons, List.any_map]
        simp only [h0]
        rw [Bool.false_or]
        rfl
      rw [hc]
      have hn : i + 1 + n = i + (n + 1) := by omega
      rw [hn]

theorem dupSpec_fun_succ_record (p : String) (e : PyDict) (rest : List JsonLine)
    (seen : List Value) (n i : Nat)
    (ht : pyTruthy (dictGetD e p .vNull) = true)
    (hp : pkWf (dictGetD e p .vNull) = true) :
    (match truthyPkAt p (JsonLine.record e :: rest) (i + 1) with
     | some v =>
         if pyMem v seen || (List.range (i + 1)).any (fun j =>
             match truthyPkAt p (JsonLine.record e :: rest) j with
             | some w => pyEq v w
             | none => false)
         then some ((i + 1) + n, v)
         else none
     | none => none)
    = (match truthyPkAt p rest i with
       | some v =>
           if pyMem v (seenInsert seen (dictGetD e p .vNull)) ||
               (List.range i).any (fun j =>
                 match truthyPkAt p rest j with
                 | some w => pyEq v w
                 | none => false)
           then some (i + (n + 1), v)
           else none
       | none => none) := by
  have htop : truthyPkAt p (JsonLine.record e :: rest) 0 = some (dictGetD e p .vNull) := by
    simp [truthyPkAt, ht]
  rw [truthyPkAt_succ]
  cases hv : truthyPkAt p rest i with
  | none => rfl
  | some v =>
      show (if pyMem v seen || (List.range (i + 1)).any (fun j =>
            match truthyPkAt p (JsonLine.record e :: rest) j with
            | some w => pyEq v w
            | none => false)
          then some ((i + 1) + n, v)
          else none)
        = (if pyMem v (seenInsert seen (dictGetD e p .vNull)) ||
              (List.range i).any (fun j =>
                match truthyPkAt p rest j with
                | some w => pyEq v w
                | none => false)
            then some (i + (n + 1), v)
            else none)
      have hc : (pyMem v seen || (List.range (i + 1)).any (fun j =>
            match truthyPkAt p (JsonLine.record e :: rest) j with
            | some w => pyEq v w
            | none => false))
          = (pyMem v (seenInsert seen (dictGetD e p .vNull)) ||
              (List.range i).any (fun j =>
                match truthyPkAt p rest j with
                | some w => pyEq v w
                | none => false)) := by
        rw [List.range_succ_eq_map, List.any_cons, List.any_map]
        simp only [htop]
        rw [pyMem_seenInsert seen (dictGetD e p .vNull) v hp]
        rw [← Bool.or_assoc]
        rfl
      rw [hc]
      have hn : i + 1 + n = i + (n + 1) := by omega
      rw [hn]

theorem dupSpecSeen_cons_skip (p : String) (l : JsonLine) (rest : List JsonLine)
    (seen : List Value) (n : Nat) (h0 : truthyPkAt p (l :: rest) 0 = none) :
    dupSpecSeen p seen n (l :: rest) = dupSpecSeen p seen (n + 1) rest := by
  unfold dupSpecSeen
  rw [List.length_cons, List.range_succ_eq_map, List.filterMap_cons, List.filterMap_map]
  simp only [h0]
  exact filterMap_ext _ _ _ (fun i => dupSpec_fun_succ_skip p l rest seen n i h0)

theorem dupSpecSeen_cons_record (p : String) (e : PyDict) (rest : List JsonLine)
    (seen : List Value) (n : Nat)
    (ht : pyTruthy (dictGetD e p .vNull) = true)
    (hp : pkWf (dictGetD e p .vNull) = true) :
    dupSpecSeen p seen n (.record e :: rest) =
      (if pyMem (dictGetD e p .vNull) seen then [(n, dictGetD e p .vNull)] else []) ++
        dupSpecSeen p (seenInsert seen (dictGetD e p .vNull)) (n + 1) rest := by
  have htop : truthyPkAt p (JsonLine.record e :: rest) 0 = some (dictGetD e p .vNull) := by
    simp [truthyPkAt, ht]
  conv_lhs => unfold dupSpecSeen
  rw [List.length_cons, List.range_succ_eq_map]
  set f : Nat → Option (Nat × Value) := fun i =>
    match truthyPkAt p (JsonLine.record e :: rest) i with
    | some v =>
        if pyMem v seen || (List.range i).any (fun j =>
            match truthyPkAt p (JsonLine.record e :: rest) j with
            | some w => pyEq v w
            | none => false)
        then some (i + n, v)
        else none
    | none => none with hf
  have hf0 : f 0 = if pyMem (dictGetD e p .vNull) seen
      then some (n, dictGetD e p .vNull) else none := by
    rw [hf]
    simp [htop]
  have htail : (List.range rest.length).filterMap (f ∘ Nat.succ)
      = dupSpecSeen p (seenInsert seen (dictGetD e p .vNull)) (n + 1) rest := by
    conv_rhs => unfold dupSpecSeen
    refine filterMap_ext _ _ _ (fun i => ?_)
    rw [hf]
    exact dupSpec_fun_succ_record p e rest seen n i ht hp
  by_cases hm : pyMem (dictGetD e p .vNull) seen = true
  · rw [List.filterMap_cons_some (show f 0 = some (n, dictGetD e p Value.vNull) by
      rw [hf0]; exact if_pos hm)]
    rw [List.filterMap_map, htail, if_pos hm, List.singleton_append]
  · rw [List.filterMap_cons_none (show f 0 = none by rw [hf0]; exact if_neg hm)]
    rw [List.filterMap_map, htail, if_neg hm, List.nil_append]

theorem dupsFold_eq_dupSpecSeen (p : String) :
    ∀ (lines : List JsonLine) (seen : List Value) (n : Nat),
      (∀ i v, truthyPkAt p lines i = some v → pkWf v = true) →
      dupsFold p seen n lines = dupSpecSeen p seen n lines := by
  intro lines
  induction lines with
  | nil =>
      intro seen n _
      rfl
  | cons l rest ih =>
      intro seen n hw
      have hwrest : ∀ i v, truthyPkAt p rest i = some v → pkWf v = true := fun i v h =>
        hw (i + 1) v h
      cases l with
      | record e =>
          by_cases ht : pyTruthy (dictGetD e p .vNull) = true
          · have hp : pkWf (dictGetD e p .vNull) = true := by
              apply hw 0
              simp [truthyPkAt, ht]
            rw [dupSpecSeen_cons_record p e rest seen n ht hp]
            have hl : dupsFold p seen n (JsonLine.record e :: rest)
                = (if pyMem (dictGetD e p .vNull) seen
                    then [(n, dictGetD e p .vNull)] else [])
                  ++ dupsFold p (seenInsert seen (dictGetD e p .vNull)) (n + 1) rest := by
              simp only [dupsFold]
              rw [if_pos ht]
            rw [hl, ih (seenInsert seen (dictGetD e p .vNull)) (n + 1) hwrest]
          · have hl : dupsFold p seen n (JsonLine.record e :: rest)
                = dupsFold p seen (n + 1) rest := by
              simp only [dupsFold]
              rw [if_neg ht]
            have h0 : truthyPkAt p (JsonLine.record e :: rest) 0 = none := by
              simp [truthyPkAt, ht]
            rw [hl, ih seen (n + 1) hwrest, dupSpecSeen_cons_skip p _ rest seen n h0]
      | blank =>
          have h0 : truthyPkAt p (JsonLine.blank :: rest) 0 = none := by
            simp [truthyPkAt]
          rw [show dupsFold p seen n (JsonLine.blank :: rest) = dupsFold p seen (n + 1) rest
            from rfl]
          rw [ih seen (n + 1) hwrest, dupSpecSeen_cons_skip p _ rest seen n h0]
      | badJson =>
          have h0 : truthyPkAt p (JsonLine.badJson :: rest) 0 = none := by
            simp [truthyPkAt]
          rw [show dupsFold p seen n (JsonLine.badJson :: rest) = dupsFold p seen (n + 1) rest
            from rfl]
          rw [ih seen (n + 1) hwrest, dupSpecSeen_cons_skip p _ rest seen n h0]

theorem dupSpecSeen_empty (p : String) (lines : List JsonLine) :
    dupSpecSeen p [] 1 lines = dupSpec p lines := by
  unfold dupSpecSeen dupSpec
  refine filterMap_ext _ _ _ (fun i => ?_)
  cases hv : truthyPkAt p lines i with
  | none => rfl
  | some v => rfl

theorem vfGo_duplicates (entities : EntitiesSchema) (t p : String) (hps : (p != "") = true) :
    ∀ (lines : List JsonLine) (n : Nat) (stats : VStats) (seen : List Value) (st : VStats),
      vfGo entities t (some p) n stats seen lines = .ok st →
      st.primary_key_duplicates = stats.primary_key_duplicates ++ dupsFold p seen n lines := by
  intro lines
  induction lines with
  | nil =>
      intro n stats seen st h
      have h' : Except.ok (ε := Unit) stats = .ok st := h
      injection h' with h'
      subst h'
      simp [dupsFold]
  | cons l rest ih =>
      intro n stats seen st h
      cases l with
      | blank =>
          have h' : vfGo entities t (some p) (n + 1) stats seen rest = .ok st := h
          rw [ih (n + 1) stats seen st h']
          rfl
      | badJson =>
          unfold vfGo at h
          rw [ih _ _ _ _ h]
          rfl
      | record e =>
          unfold vfGo at h
          dsimp only at h
          rw [if_pos hps] at h
          by_cases hv : (validate_entity entities e t).1 = true
          · rw [if_pos hv] at h
            by_cases ht : pyTruthy (dictGetD e p .vNull) = true
            · rw [if_pos ht] at h
              by_cases hh : pyHashable (dictGetD e p .vNull) = true
              · rw [if_neg (show ¬((!pyHashable (dictGetD e p .vNull)) = true) by
                  simp [hh])] at h
                by_cases hm : pyMem (dictGetD e p .vNull) seen = true
                · rw [if_pos hm] at h
                  rw [ih _ _ _ _ h]
                  have hd : dupsFold p seen n (JsonLine.record e :: rest)
                      = [(n, dictGetD e p .vNull)]
                        ++ dupsFold p (seenInsert seen (dictGetD e p .vNull)) (n + 1) rest := by
                    simp only [dupsFold]
                    rw [if_pos ht, if_pos hm]
                  rw [hd]
                  show (stats.primary_key_duplicates ++ [(n, dictGetD e p .vNull)])
                      ++ dupsFold p (seenInsert seen (dictGetD e p .vNull)) (n + 1) rest
                      = stats.primary_key_duplicates ++ ([(n, dictGetD e p .vNull)]
                        ++ dupsFold p (seenInsert seen (dictGetD e p .vNull)) (n + 1) rest)
                  rw [List.append_assoc]
                · rw [if_neg hm] at h
                  rw [ih _ _ _ _ h]
                  have hd : dupsFold p seen n (JsonLine.record e :: rest)
                      = dupsFold p (seenInsert seen (dictGetD e p .vNull)) (n + 1) rest := by
                    simp only [dupsFold]
                    rw [if_pos ht, if_neg hm, List.nil_append]
                  rw [hd]
              · rw [if_pos (show (!pyHashable (dictGetD e p .vNull)) = true by
                  have hh2 : pyHashable (dictGetD e p .vNull) = false := by simpa using hh
                  rw [hh2]
                  rfl)] at h
                exact Except.noConfusion h
            · rw [if_neg ht] at h
              rw [ih _ _ _ _ h]
              have hd : dupsFold p seen n (JsonLine.record e :: rest)
                  = dupsFold p seen (n + 1) rest := by
                simp only [dupsFold]
                rw [if_neg ht]
              rw [hd]
          · rw [if_neg hv] at h
            by_cases ht : pyTruthy (dictGetD e p .vNull) = true
            · rw [if_pos ht] at h
              by_cases hh : pyHashable (dictGetD e p .vNull) = true
              · rw [if_neg (show ¬((!pyHashable (dictGetD e p .vNull)) = true) by
                  simp [hh])] at h
                by_cases hm : pyMem (dictGetD e p .vNull) seen = true
                · rw [if_pos hm] at h
                  rw [ih _ _ _ _ h]
                  have hd : dupsFold p seen n (JsonLine.record e :: rest)
                      = [(n, dictGetD e p .vNull)]
                        ++ dupsFold p (seenInsert seen (dictGetD e p .vNull)) (n + 1) rest := by
                    simp only [dupsFold]
                    rw [if_pos ht, if_pos hm]
                  rw [hd]
                  show (stats.primary_key_duplicates ++ [(n, dictGetD e p .vNull)])
                      ++ dupsFold p (seenInsert seen (dictGetD e p .vNull)) (n + 1) rest
                      = stats.primary_key_duplicates ++ ([(n, dictGetD e p .vNull)]
                        ++ dupsFold p (seenInsert seen (dictGetD e p .vNull)) (n + 1) rest)
                  rw [List.append_assoc]
                · rw [if_neg hm] at h
                  rw [ih _ _ _ _ h]
                  have hd : dupsFold p seen n (JsonLine.record e :: rest)
                      = dupsFold p (seenInsert seen (dictGetD e p .vNull)) (n + 1) rest := by
                    simp only [dupsFold]
                    rw [if_pos ht, if_neg hm, List.nil_append]
                  rw [hd]
              · rw [if_pos (show (!pyHashable (dictGetD e p .vNull)) = true by
                  have hh2 : pyHashable (dictGetD e p .vNull) = false := by simpa using hh
                  rw [hh2]
                  rfl)] at h
                exact Except.noConfusion h
            · rw [if_neg ht] at h
              rw [ih _ _ _ _ h]
              have hd : dupsFold p seen n (JsonLine.record e :: rest)
                  = dupsFold p seen (n + 1) rest := by
                simp only [dupsFold]
                rw [if_neg ht]
              rw [hd]

/-- Counterexample to claim C9 as stated ("for every primary-key value that
occurs on more than one line, every occurrence after the first is recorded
in primary_key_duplicates"): a stream whose two record lines both carry the
primary-key value "" (present but falsy) produces an empty
primary_key_duplicates list — only truthy keys enter the seen-set
tracking. -/
theorem validate_file_empty_key_untracked :
    (validate_file fxEnt9 "blog_post" fxLines9).map (fun st => st.primary_key_duplicates)
        = .ok [] ∧
      fxLines9.get? 0 = some (.record fxRec9) ∧
      fxLines9.get? 1 = some (.record fxRec9) ∧
      dictGetD fxRec9 "id" .vNull = .vStr "" ∧
      pkOfType fxEnt9 "blog_post" = some "id" := by
  refine ⟨by with_unfolding_all rfl, rfl, rfl, rfl, rfl⟩

/-- Claim C9 as amended: over one entity type's JSONL stream, for every
truthy, well-formed primary-key value, every occurrence after the first
(under Python equality, against all earlier lines — the seen set is never
cleared) is recorded in primary_key_duplicates with its correct 1-based line
number and the key, and first occurrences are never recorded: the recorded
list is exactly `dupSpec`.  Falsy keys (such as "" or a missing field) are
not tracked, and an unhashable truthy key raises instead of returning. -/
theorem validate_file_duplicates_amended (entities : EntitiesSchema) (t p : String)
    (lines : List JsonLine) (st : VStats)
    (hp : (match entities.lookup t with
           | some es => es.primary_key
           | none => none) = some p)
    (hne : (p != "") = true)
    (hwf : ∀ i v, truthyPkAt p lines i = some v → pkWf v = true)
    (hok : validate_file entities t lines = .ok st) :
    st.primary_key_duplicates = dupSpec p lines := by
  unfold validate_file at hok
  rw [hp] at hok
  have hok' : vfGo entities t (some p) 1 {} [] lines = .ok st := hok
  have h1 := vfGo_duplicates entities t p hne lines 1 {} [] st hok'
  rw [h1]
  show dupsFold p [] 1 lines = dupSpec p lines
  rw [dupsFold_eq_dupSpecSeen p lines [] 1 hwf, dupSpecSeen_empty]

/-- Witness for the amended C9: two occurrences of key doc-42 separated by a
blank line; the second occurrence is recorded at 1-based line 3 and the
first is not recorded, matching `dupSpec`. -/
theorem validate_file_duplicates_amended_use :
    validate_file fxEnt9 "blog_post" fxLines9d =
        .ok { total := 2, valid := 2, invalid := 0, errors := [],
              primary_key_duplicates := [(3, .vStr "doc-42")],
              field_coverage := [("id", 2)] } ∧
      dupSpec "id" fxLines9d = [(3, .vStr "doc-42")] := by
  have h0 : validate_file fxEnt9 "blog_post" fxLines9d =
      .ok { total := 2, valid := 2, invalid := 0, errors := [],
            primary_key_duplicates := [(3, .vStr "doc-42")],
            field_coverage := [("id", 2)] } := by
    with_unfolding_all rfl
  have hwf : ∀ i v, truthyPkAt "id" fxLines9d i = some v → pkWf v = true := by
    intro i v h
    rcases i with _ | _ | _ | i
    · rw [show truthyPkAt "id" fxLines9d 0 = some (Value.vStr "doc-42") by
        with_unfolding_all rfl] at h
      injection h with h
      subst h
      rfl
    · rw [show truthyPkAt "id" fxLines9d 1 = none by with_unfolding_all rfl] at h
      exact Option.noConfusion h
    · rw [show truthyPkAt "id" fxLines9d 2 = some (Value.vStr "doc-42") by
        with_unfolding_all rfl] at h
      injection h with h
      subst h
      rfl
    · rw [show truthyPkAt "id" fxLines9d (i + 3) = none from rfl] at h
      exact Option.noConfusion h
  have h := validate_file_duplicates_amended fxEnt9 "blog_post" "id" fxLines9d
    { total := 2, valid := 2, invalid := 0, errors := [],
      primary_key_duplicates := [(3, .vStr "doc-42")],
      field_coverage := [("id", 2)] }
    rfl rfl hwf h0
  exact ⟨h0, h.symm⟩

theorem exceptTs_refl (e : PyDict) : exceptTs e e := by
  unfold exceptTs
  exact List.forall₂_same.mpr (fun x _ => ⟨rfl, Or.inl rfl⟩)

theorem exceptTs_lookup (e e2 : PyDict) (k : String) (hk : k ≠ "extracted_at")
    (h : exceptTs e e2) : assocLookup e k = assocLookup e2 k := by
  induction e generalizing e2 with
  | nil =>
      cases h
      rfl
  | cons a as ih =>
      cases h with
      | cons hab hrest =>
          rename_i b bs
          obtain ⟨k1, v1⟩ := a
          obtain ⟨k2, v2⟩ := b
          obtain ⟨hk1, hv⟩ := hab
          have hk1p : k1 = k2 := hk1
          subst hk1p
          show (if k1 == k then some v1 else assocLookup as k)
            = (if k1 == k then some v2 else assocLookup bs k)
          by_cases hkk : (k1 == k) = true
          · rw [if_pos hkk, if_pos hkk]
            rcases hv with hv | ⟨hts, _⟩
            · have hv' : v1 = v2 := hv
              rw [hv']
            · have hts' : k1 = "extracted_at" := hts
              exact absurd hts' (by rw [show k1 = k from by simpa using hkk]; exact hk)
          · rw [if_neg hkk, if_neg hkk]
            exact ih bs hrest

theorem exceptTs_dictGetD (e e2 : PyDict) (k : String) (dflt : Value)
    (hk : k ≠ "extracted_at") (h : exceptTs e e2) :
    dictGetD e k dflt = dictGetD e2 k dflt := by
  unfold dictGetD dictGet
  rw [exceptTs_lookup e e2 k hk h]

theorem exceptTs_dictSet (e e2 : PyDict) (k : String) (v : Value) (h : exceptTs e e2) :
    exceptTs (dictSet e k v) (dictSet e2 k v) := by
  induction e generalizing e2 with
  | nil =>
      cases h
      exact List.Forall₂.cons ⟨rfl, Or.inl rfl⟩ List.Forall₂.nil
  | cons a as ih =>
      cases h with
      | cons hab hrest =>
          rename_i b bs
          obtain ⟨k1, v1⟩ := a
          obtain ⟨k2, v2⟩ := b
          obtain ⟨hk1, hv⟩ := hab
          have hk1p : k1 = k2 := hk1
          subst hk1p
          show exceptTs (if k1 == k then (k1, v) :: as else (k1, v1) :: dictSet as k v)
            (if k1 == k then (k1, v) :: bs else (k1, v2) :: dictSet bs k v)
          by_cases hkk : (k1 == k) = true
          · rw [if_pos hkk, if_pos hkk]
            exact List.Forall₂.cons ⟨rfl, Or.inl rfl⟩ hrest
          · rw [if_neg hkk, if_neg hkk]
            exact List.Forall₂.cons ⟨rfl, hv⟩ (ih bs hrest)

theorem exceptTs_stamp (e e2 : PyDict) (now now2 : String) (h : exceptTs e e2) :
    exceptTs (dictSet e "extracted_at" (.vStr now)) (dictSet e2 "extracted_at" (.vStr now2)) := by
  induction e generalizing e2 with
  | nil =>
      cases h
      exact List.Forall₂.cons ⟨rfl, Or.inr ⟨rfl, now, now2, rfl, rfl⟩⟩ List.Forall₂.nil
  | cons a as ih =>
      cases h with
      | cons hab hrest =>
          rename_i b bs
          obtain ⟨k1, v1⟩ := a
          obtain ⟨k2, v2⟩ := b
          obtain ⟨hk1, hv⟩ := hab
          have hk1p : k1 = k2 := hk1
          subst hk1p
          show exceptTs
            (if k1 == "extracted_at" then (k1, .vStr now) :: as
              else (k1, v1) :: dictSet as "extracted_at" (.vStr now))
            (if k1 == "extracted_at" then (k1, .vStr now2) :: bs
              else (k1, v2) :: dictSet bs "extracted_at" (.vStr now2))
          by_cases hkk : (k1 == "extracted_at") = true
          · rw [if_pos hkk, if_pos hkk]
            exact List.Forall₂.cons ⟨rfl, Or.inr ⟨by simpa using hkk, now, now2, rfl, rfl⟩⟩ hrest
          · rw [if_neg hkk, if_neg hkk]
            exact List.Forall₂.cons ⟨rfl, hv⟩ (ih bs hrest)

theorem jsonDumpableFields_exceptTs (e e2 : PyDict) (h : exceptTs e e2) :
    jsonDumpableFields e = jsonDumpableFields e2 := by
  induction e generalizing e2 with
  | nil =>
      cases h
      rfl
  | cons a as ih =>
      cases h with
      | cons hab hrest =>
          rename_i b bs
          obtain ⟨k1, v1⟩ := a
          obtain ⟨k2, v2⟩ := b
          obtain ⟨hk1, hv⟩ := hab
          show (jsonDumpable v1 && jsonDumpableFields as)
            = (jsonDumpable v2 && jsonDumpableFields bs)
          rw [ih bs hrest]
          rcases hv with hv | ⟨_, s, s2, hs1, hs2⟩
          · have hv' : v1 = v2 := hv
            rw [hv']
          · have hs1' : v1 = .vStr s := hs1
            have hs2' : v2 = .vStr s2 := hs2
            rw [hs1', hs2']
            rfl

theorem jsonDumpable_obj_exceptTs (e e2 : PyDict) (h : exceptTs e e2) :
    jsonDumpable (.vObj e) = jsonDumpable (.vObj e2) := by
  show jsonDumpableFields e = jsonDumpableFields e2
  exact jsonDumpableFields_exceptTs e e2 h

theorem disambiguator_exceptTs (e e2 : PyDict) (h : exceptTs e e2) :
    disambiguator e = disambiguator e2 := by
  unfold disambiguator
  rw [exceptTs_dictGetD e e2 "canonical_url" .vNull (by decide) h,
    exceptTs_dictGetD e e2 "source_file" (.vStr "") (by decide) h]

theorem exceptTs_foldl {α : Type} (l : List α) (g : PyDict → α → PyDict)
    (hg : ∀ acc acc2 p, exceptTs acc acc2 → exceptTs (g acc p) (g acc2 p)) :
    ∀ acc acc2, exceptTs acc acc2 → exceptTs (l.foldl g acc) (l.foldl g acc2) := by
  induction l with
  | nil => intro acc acc2 h; exact h
  | cons p rest ih =>
      intro acc acc2 h
      exact ih (g acc p) (g acc2 p) (hg acc acc2 p h)

theorem forall₂_map_map {α β : Type} (R : β → β → Prop) (f g : α → β) (l : List α)
    (h : ∀ x, R (f x) (g x)) : List.Forall₂ R (l.map f) (l.map g) := by
  induction l with
  | nil => exact List.Forall₂.nil
  | cons a l ih => exact List.Forall₂.cons (h a) ih

theorem review_step_rel (soupE : Soup) (acc acc2 : PyDict) (p : String × FieldConfig)
    (h : exceptTs acc acc2) :
    exceptTs
      (if p.1 == "container" then acc
        else match extract_field soupE p.2 "" with
          | .ok v => dictSet acc p.1 v
          | .error _ => dictSet acc p.1 p.2.fallback)
      (if p.1 == "container" then acc2
        else match extract_field soupE p.2 "" with
          | .ok v => dictSet acc2 p.1 v
          | .error _ => dictSet acc2 p.1 p.2.fallback) := by
  by_cases hc : (p.1 == "container") = true
  · rw [if_pos hc, if_pos hc]
    exact h
  · rw [if_neg hc, if_neg hc]
    cases extract_field soupE p.2 "" with
    | ok v => exact exceptTs_dictSet acc acc2 p.1 v h
    | error u => exact exceptTs_dictSet acc acc2 p.1 p.2.fallback h

theorem review_finish_rel (d d2 : PyDict) (v : Value) (h : exceptTs d d2) :
    exceptTs
      (if pyTruthy (dictGetD d "review_id" .vNull) then d
        else dictSet d "review_id" v)
      (if pyTruthy (dictGetD d2 "review_id" .vNull) then d2
        else dictSet d2 "review_id" v) := by
  rw [exceptTs_dictGetD d d2 "review_id" .vNull (by decide) h]
  by_cases ht : pyTruthy (dictGetD d2 "review_id" .vNull) = true
  · rw [if_pos ht, if_pos ht]
    exact h
  · rw [if_neg ht, if_neg ht]
    exact exceptTs_dictSet d d2 "review_id" v h

theorem extract_reviews_rel (schema : SelectorsSchema) (soup : Soup) (eid : Value)
    (t now now2 : String) :
    List.Forall₂ exceptTs (extract_reviews schema soup eid t now)
      (extract_reviews schema soup eid t now2) := by
  unfold extract_reviews
  refine forall₂_map_map _ _ _ _ (fun pr => ?_)
  have hbase : exceptTs
      [("reviewed_entity_type", Value.vStr t), ("reviewed_entity_id", eid),
        ("extracted_at", Value.vStr now)]
      [("reviewed_entity_type", Value.vStr t), ("reviewed_entity_id", eid),
        ("extracted_at", Value.vStr now2)] :=
    List.Forall₂.cons ⟨rfl, Or.inl rfl⟩ (List.Forall₂.cons ⟨rfl, Or.inl rfl⟩
      (List.Forall₂.cons ⟨rfl, Or.inr ⟨rfl, now, now2, rfl, rfl⟩⟩ List.Forall₂.nil))
  exact review_finish_rel _ _ _
    (exceptTs_foldl _ _ (fun a a2 p h => review_step_rel (elemSoup pr.2) a a2 p h) _ _ hbase)

theorem extract_entity_rel (schema : SelectorsSchema) (pt : String) (soup : Soup)
    (url path now now2 : String) :
    (extract_entity schema pt soup url path now = .error () ∧
      extract_entity schema pt soup url path now2 = .error ()) ∨
    (∃ e e2, extract_entity schema pt soup url path now = .ok e ∧
      extract_entity schema pt soup url path now2 = .ok e2 ∧ exceptTs e e2) := by
  unfold extract_entity
  cases hc : extract_entity_core schema pt soup url with
  | error u => exact Or.inl ⟨rfl, rfl⟩
  | ok base =>
      refine Or.inr ⟨_, _, rfl, rfl, ?_⟩
      exact exceptTs_dictSet _ _ "source_file" (.vStr path)
        (exceptTs_stamp base base now now2 (exceptTs_refl base))

theorem process_file_rel (schema : SelectorsSchema) (m now now2 : String) (d : Doc) :
    pfRel (process_file schema m now d) (process_file schema m now2 d) := by
  cases hu : urlOf m d with
  | error u =>
      have q1 : process_file schema m now d = .error u := by
        simp only [process_file, hu]
      have q2 : process_file schema m now2 d = .error u := by
        simp only [process_file, hu]
      rw [q1, q2]
      trivial
  | ok url =>
      cases hd : detect_page_type schema.detection url d.soup with
      | error u =>
          have q1 : process_file schema m now d = .error u := by
            simp only [process_file, hu, hd]
          have q2 : process_file schema m now2 d = .error u := by
            simp only [process_file, hu, hd]
          rw [q1, q2]
          trivial
      | ok o =>
          cases o with
          | none =>
              have q1 : process_file schema m now d = .ok none := by
                simp only [process_file, hu, hd]
              have q2 : process_file schema m now2 d = .ok none := by
                simp only [process_file, hu, hd]
              rw [q1, q2]
              trivial
          | some pt =>
              rcases extract_entity_rel schema pt d.soup url d.path now now2 with
                ⟨h1, h2⟩ | ⟨e, e2, h1, h2, hrel⟩
              · have q1 : process_file schema m now d = .error () := by
                  simp only [process_file, hu, hd, h1]
                have q2 : process_file schema m now2 d = .error () := by
                  simp only [process_file, hu, hd, h2]
                rw [q1, q2]
                trivial
              · have q1 : process_file schema m now d = .ok (some ⟨pt, url, e,
                    if (pt == "practitioner" || pt == "clinic") = true then
                      (if pyTruthy (dictGetD e "doctify_id" Value.vNull) = true then
                        extract_reviews schema d.soup (dictGetD e "doctify_id" Value.vNull) pt now
                      else [])
                    else []⟩) := by
                  simp only [process_file, hu, hd, h1]
                have q2 : process_file schema m now2 d = .ok (some ⟨pt, url, e2,
                    if (pt == "practitioner" || pt == "clinic") = true then
                      (if pyTruthy (dictGetD e2 "doctify_id" Value.vNull) = true then
                        extract_reviews schema d.soup (dictGetD e2 "doctify_id" Value.vNull) pt now2
                      else [])
                    else []⟩) := by
                  simp only [process_file, hu, hd, h2]
                rw [q1, q2]
                refine ⟨rfl, rfl, hrel, ?_⟩
                by_cases hpc : (pt == "practitioner" || pt == "clinic") = true
                · rw [if_pos hpc, if_pos hpc]
                  have heid : dictGetD e "doctify_id" .vNull = dictGetD e2 "doctify_id" .vNull :=
                    exceptTs_dictGetD e e2 "doctify_id" .vNull (by decide) hrel
                  rw [heid]
                  by_cases ht : pyTruthy (dictGetD e2 "doctify_id" .vNull) = true
                  · rw [if_pos ht, if_pos ht]
                    exact extract_reviews_rel schema d.soup _ pt now now2
                  · rw [if_neg ht, if_neg ht]
                    exact List.Forall₂.nil
                · rw [if_neg hpc, if_neg hpc]
                  exact List.Forall₂.nil

theorem slugAdjust_rel (e e2 : PyDict) (orig : Value) (seen : List Value) (c : Nat)
    (he : exceptTs e e2) :
    (slugAdjust e orig seen c = .error () ∧ slugAdjust e2 orig seen c = .error ()) ∨
    (∃ d1 d2 s2 c2, slugAdjust e orig seen c = .ok (d1, s2, c2) ∧
      slugAdjust e2 orig seen c = .ok (d2, s2, c2) ∧ exceptTs d1 d2) := by
  unfold slugAdjust
  by_cases hh : ((!pyHashable orig) = true)
  · rw [if_pos hh, if_pos hh]
    exact Or.inl ⟨rfl, rfl⟩
  · rw [if_neg hh, if_neg hh]
    by_cases hm : pyMem orig seen = true
    · rw [if_pos hm, if_pos hm]
      have hd : disambiguator e = disambiguator e2 := disambiguator_exceptTs e e2 he
      cases hu : disambiguator e with
      | error u =>
          have hu2 : disambiguator e2 = .error u := by rw [← hd]; exact hu
          rw [hu2]
          exact Or.inl ⟨rfl, rfl⟩
      | ok u =>
          have hu2 : disambiguator e2 = .ok u := by rw [← hd]; exact hu
          rw [hu2]
          refine Or.inr ⟨_, _, _, _, rfl, rfl, ?_⟩
          exact exceptTs_dictSet e e2 "slug" _ he
    · rw [if_neg hm, if_neg hm]
      exact Or.inr ⟨e, e2, seenInsert seen orig, c, rfl, rfl, he⟩

theorem writeReviewsAux_rel :
    ∀ (rvs rvs2 : List PyDict), List.Forall₂ exceptTs rvs rvs2 →
      ∀ (outs outs2 : List (String × PyDict)), outRel outs outs2 →
      (∃ o o2, writeReviewsAux outs rvs = .ok o ∧ writeReviewsAux outs2 rvs2 = .ok o2 ∧
        outRel o o2) ∨
      (∃ o o2, writeReviewsAux outs rvs = .error o ∧ writeReviewsAux outs2 rvs2 = .error o2 ∧
        outRel o o2) := by
  intro rvs rvs2 hrv
  induction hrv with
  | nil =>
      intro outs outs2 ho
      exact Or.inl ⟨outs, outs2, rfl, rfl, ho⟩
  | cons hab hrest ih =>
      rename_i rv rv2 rvsa rvsb
      intro outs outs2 ho
      have hj : jsonDumpable (.vObj rv) = jsonDumpable (.vObj rv2) :=
        jsonDumpable_obj_exceptTs rv rv2 hab
      by_cases hjd : jsonDumpable (.vObj rv) = true
      · have hjd2 : jsonDumpable (.vObj rv2) = true := by rw [← hj]; exact hjd
        have e1 : writeReviewsAux outs (rv :: rvsa)
            = writeReviewsAux (outs ++ [("review", rv)]) rvsa := by
          rw [show writeReviewsAux outs (rv :: rvsa)
              = if jsonDumpable (Value.vObj rv) = true then
                  writeReviewsAux (outs ++ [("review", rv)]) rvsa
                else Except.error outs from rfl]
          rw [if_pos hjd]
        have e2 : writeReviewsAux outs2 (rv2 :: rvsb)
            = writeReviewsAux (outs2 ++ [("review", rv2)]) rvsb := by
          rw [show writeReviewsAux outs2 (rv2 :: rvsb)
              = if jsonDumpable (Value.vObj rv2) = true then
                  writeReviewsAux (outs2 ++ [("review", rv2)]) rvsb
                else Except.error outs2 from rfl]
          rw [if_pos hjd2]
        rw [e1, e2]
        exact ih _ _ (List.rel_append ho
          (List.Forall₂.cons ⟨rfl, hab⟩ List.Forall₂.nil))
      · have hjd2 : ¬(jsonDumpable (.vObj rv2) = true) := by rw [← hj]; exact hjd
        have e1 : writeReviewsAux outs (rv :: rvsa) = .error outs := by
          rw [show writeReviewsAux outs (rv :: rvsa)
              = if jsonDumpable (Value.vObj rv) = true then
                  writeReviewsAux (outs ++ [("review", rv)]) rvsa
                else Except.error outs from rfl]
          rw [if_neg hjd]
        have e2 : writeReviewsAux outs2 (rv2 :: rvsb) = .error outs2 := by
          rw [show writeReviewsAux outs2 (rv2 :: rvsb)
              = if jsonDumpable (Value.vObj rv2) = true then
                  writeReviewsAux (outs2 ++ [("review", rv2)]) rvsb
                else Except.error outs2 from rfl]
          rw [if_neg hjd2]
        exact Or.inr ⟨outs, outs2, e1, e2, ho⟩

theorem procWrite_rel (r r2 : ProcResult) (entity entity2 : PyDict) (st st2 : RunState)
    (hpt : r.pageType = r2.pageType) (hrev : List.Forall₂ exceptTs r.reviews r2.reviews)
    (he : exceptTs entity entity2) (hst : stateRel st st2) :
    stateRel (procWrite r entity st) (procWrite r2 entity2 st2) := by
  obtain ⟨hstats, hseen, houts⟩ := hst
  unfold procWrite
  rw [← hpt]
  have hj : jsonDumpable (.vObj entity) = jsonDumpable (.vObj entity2) :=
    jsonDumpable_obj_exceptTs entity entity2 he
  have hlen : r.reviews.length = r2.reviews.length := List.Forall₂.length_eq hrev
  have hre : r.reviews.isEmpty = r2.reviews.isEmpty := by
    cases hq1 : r.reviews with
    | nil =>
        cases hq2 : r2.reviews with
        | nil => rfl
        | cons b k =>
            rw [hq1, hq2] at hlen
            simp at hlen
    | cons a l =>
        cases hq2 : r2.reviews with
        | nil =>
            rw [hq1, hq2] at hlen
            simp at hlen
        | cons b k => rfl
  by_cases hct : (entityTypes.contains r.pageType) = true
  · by_cases hjd : jsonDumpable (.vObj entity) = true
    · have hjd2 : jsonDumpable (.vObj entity2) = true := by rw [← hj]; exact hjd
      rw [if_pos hct, if_pos hct, if_pos hjd, if_pos hjd2]
      dsimp only
      have ho2 : outRel (st.outputs ++ [(r.pageType, entity)])
          (st2.outputs ++ [(r.pageType, entity2)]) :=
        List.rel_append houts (List.Forall₂.cons ⟨rfl, he⟩ List.Forall₂.nil)
      by_cases hrm : r.reviews.isEmpty = true
      · have hrm2 : r2.reviews.isEmpty = true := by rw [← hre]; exact hrm
        rw [if_pos hrm, if_pos hrm2]
        exact ⟨by rw [hstats], hseen, ho2⟩
      · have hrm2 : ¬(r2.reviews.isEmpty = true) := by rw [← hre]; exact hrm
        rw [if_neg hrm, if_neg hrm2]
        rcases writeReviewsAux_rel r.reviews r2.reviews hrev _ _ ho2 with
          ⟨o, o2, hw1, hw2, horel⟩ | ⟨o, o2, hw1, hw2, horel⟩
        · rw [hw1, hw2]
          refine ⟨?_, hseen, horel⟩
          rw [hstats, hlen]
        · rw [hw1, hw2]
          exact ⟨by rw [hstats], hseen, horel⟩
    · have hjd2 : ¬(jsonDumpable (.vObj entity2) = true) := by rw [← hj]; exact hjd
      rw [if_pos hct, if_pos hct, if_neg hjd, if_neg hjd2]
      dsimp only
      exact ⟨by rw [hstats], hseen, houts⟩
  · rw [if_neg hct, if_neg hct]
    dsimp only
    by_cases hrm : r.reviews.isEmpty = true
    · have hrm2 : r2.reviews.isEmpty = true := by rw [← hre]; exact hrm
      rw [if_pos hrm, if_pos hrm2]
      exact ⟨by rw [hstats], hseen, houts⟩
    · have hrm2 : ¬(r2.reviews.isEmpty = true) := by rw [← hre]; exact hrm
      rw [if_neg hrm, if_neg hrm2]
      rcases writeReviewsAux_rel r.reviews r2.reviews hrev _ _ houts with
        ⟨o, o2, hw1, hw2, horel⟩ | ⟨o, o2, hw1, hw2, horel⟩
      · rw [hw1, hw2]
        refine ⟨?_, hseen, horel⟩
        rw [hstats, hlen]
      · rw [hw1, hw2]
        exact ⟨by rw [hstats], hseen, horel⟩

theorem procStep_rel (schema : SelectorsSchema) (m now now2 : String) (st st2 : RunState)
    (d : Doc) (hst : stateRel st st2) :
    stateRel (procStep schema m now st d) (procStep schema m now2 st2 d) := by
  obtain ⟨hstats, hseen, houts⟩ := hst
  have hpf := process_file_rel schema m now now2 d
  unfold procStep
  cases h1 : process_file schema m now d with
  | error u =>
      cases h2 : process_file schema m now2 d with
      | error u2 => exact ⟨by rw [hstats], hseen, houts⟩
      | ok o2 =>
          rw [h1, h2] at hpf
          cases o2 with
          | none => exact hpf.elim
          | some r2 => exact hpf.elim
  | ok o =>
      cases o with
      | none =>
          cases h2 : process_file schema m now2 d with
          | error u2 =>
              rw [h1, h2] at hpf
              exact hpf.elim
          | ok o2 =>
              cases o2 with
              | none => exact ⟨by rw [hstats], hseen, houts⟩
              | some r2 =>
                  rw [h1, h2] at hpf
                  exact hpf.elim
      | some r =>
          cases h2 : process_file schema m now2 d with
          | error u2 =>
              rw [h1, h2] at hpf
              exact hpf.elim
          | ok o2 =>
              cases o2 with
              | none =>
                  rw [h1, h2] at hpf
                  exact hpf.elim
              | some r2 =>
                  rw [h1, h2] at hpf
                  obtain ⟨hpt, hurl, hent, hrev⟩ := hpf
                  dsimp only
                  rw [← hpt]
                  by_cases hbp : (r.pageType == "blog_post") = true
                  · rw [if_pos hbp, if_pos hbp]
                    have hsl : dictGet r.entity "slug" = dictGet r2.entity "slug" := by
                      unfold dictGet
                      exact exceptTs_lookup _ _ "slug" (by decide) hent
                    cases hg : dictGet r.entity "slug" with
                    | none =>
                        have hg2 : dictGet r2.entity "slug" = none := by
                          rw [← hsl]
                          exact hg
                        rw [hg2]
                        dsimp only
                        exact procWrite_rel r r2 r.entity r2.entity _ _ hpt hrev hent
                          ⟨by rw [hstats], hseen, houts⟩
                    | some orig =>
                        have hg2 : dictGet r2.entity "slug" = some orig := by
                          rw [← hsl]
                          exact hg
                        rw [hg2]
                        dsimp only
                        rw [← hseen, ← hstats]
                        rcases slugAdjust_rel r.entity r2.entity orig st.seenSlugs
                            st.stats.slug_collisions hent with
                          ⟨ha1, ha2⟩ | ⟨d1, d2, s2, c2, ha1, ha2, hdd⟩
                        · rw [ha1, ha2]
                          exact ⟨rfl, rfl, houts⟩
                        · rw [ha1, ha2]
                          dsimp only
                          exact procWrite_rel r r2 d1 d2 _ _ hpt hrev hdd
                            ⟨rfl, rfl, houts⟩
                  · rw [if_neg hbp, if_neg hbp]
                    dsimp only
                    exact procWrite_rel r r2 r.entity r2.entity _ _ hpt hrev hent
                      ⟨by rw [hstats], hseen, houts⟩

theorem foldl_procStep_rel (schema : SelectorsSchema) (m now now2 : String) :
    ∀ (docs : List Doc) (st st2 : RunState), stateRel st st2 →
      stateRel (docs.foldl (procStep schema m now) st)
        (docs.foldl (procStep schema m now2) st2) := by
  intro docs
  induction docs with
  | nil =>
      intro st st2 h
      simpa using h
  | cons d ds ih =>
      intro st st2 h
      simp only [List.foldl_cons]
      exact ih _ _ (procStep_rel schema m now now2 st st2 d h)

theorem runTuples_rel (entities : EntitiesSchema) (a b : List (String × PyDict))
    (hpk : ∀ t, pkOfType entities t ≠ some "extracted_at")
    (h : outRel a b) : runTuples entities a = runTuples entities b := by
  induction h with
  | nil => rfl
  | cons hab hrest ih =>
      rename_i o o2 as bs
      obtain ⟨ht, he⟩ := hab
      unfold runTuples
      rw [List.map_cons, List.map_cons]
      congr 1
      · rw [← ht]
        have h2 : (match pkOfType entities o.1 with
            | some pk => dictGetD o.2 pk .vNull
            | none => Value.vNull)
            = (match pkOfType entities o.1 with
            | some pk => dictGetD o2.2 pk .vNull
            | none => Value.vNull) := by
          cases hpko : pkOfType entities o.1 with
          | none => rfl
          | some pk =>
              have hne : pk ≠ "extracted_at" := by
                intro hc
                exact hpk o.1 (by rw [hpko, hc])
              exact exceptTs_dictGetD o.2 o2.2 pk .vNull hne he
        have h3 : dictGetD o.2 "slug" .vNull = dictGetD o2.2 "slug" .vNull :=
          exceptTs_dictGetD o.2 o2.2 "slug" .vNull (by decide) he
        rw [h2, h3]

/-- Counterexample to claim C3 as stated ("any two runs of the extraction
pipeline produce identical sets of (page_type, primary_key, slug) tuples"):
an unchanged two-document corpus processed in its two enumeration orders
(set-based file discovery does not pin the order across runs) produces
different tuple sets — the collision suffix hashes the disambiguator of
whichever document comes second. -/
theorem run_tuples_order_dependent :
    [fxDocA, fxDocB].Perm [fxDocB, fxDocA] ∧
      ("blog_post", Value.vStr ("a" ++ "-" ++ sha1hex8 "pb"),
          Value.vStr ("a" ++ "-" ++ sha1hex8 "pb"))
        ∈ runTuples fxEnt (process_directory fxSchema "m" "T" [fxDocA, fxDocB]).outputs ∧
      ¬ (("blog_post", Value.vStr ("a" ++ "-" ++ sha1hex8 "pb"),
          Value.vStr ("a" ++ "-" ++ sha1hex8 "pb"))
        ∈ runTuples fxEnt (process_directory fxSchema "m" "T" [fxDocB, fxDocA]).outputs) := by
  have hpb : sha1hex8 "pb" = "b1fa6f10" := by with_unfolding_all rfl
  refine ⟨List.Perm.swap fxDocB fxDocA [], ?_, ?_⟩
  · rw [show runTuples fxEnt (process_directory fxSchema "m" "T" [fxDocA, fxDocB]).outputs
        = [("blog_post", Value.vStr "a", Value.vStr "a"),
           ("blog_post", Value.vStr "a-b1fa6f10", Value.vStr "a-b1fa6f10")] by
      with_unfolding_all rfl]
    rw [hpb, show ("a" ++ "-" ++ "b1fa6f10" : String) = "a-b1fa6f10" from rfl]
    simp
  · rw [show runTuples fxEnt (process_directory fxSchema "m" "T" [fxDocB, fxDocA]).outputs
        = [("blog_post", Value.vStr "a", Value.vStr "a"),
           ("blog_post", Value.vStr "a-379fc0d5", Value.vStr "a-379fc0d5")] by
      with_unfolding_all rfl]
    rw [hpb, show ("a" ++ "-" ++ "b1fa6f10" : String) = "a-b1fa6f10" from rfl]
    simp

/-- Claim C3 as amended: for a fixed corpus enumeration and fixed schema,
two extraction runs differing only in their run timestamp produce identical
lists of (page_type, primary_key, slug) tuples, provided no entity type
declares `extracted_at` as its primary key — only the extracted_at field of
the written records may differ between the runs. -/
theorem run_tuples_timestamp_invariant (schema : SelectorsSchema) (m now now2 : String)
    (docs : List Doc) (entities : EntitiesSchema)
    (hpk : ∀ t, pkOfType entities t ≠ some "extracted_at") :
    runTuples entities (process_directory schema m now docs).outputs =
      runTuples entities (process_directory schema m now2 docs).outputs := by
  have hinit : stateRel (runInit docs) (runInit docs) := ⟨rfl, rfl, List.Forall₂.nil⟩
  have h := foldl_procStep_rel schema m now now2 docs (runInit docs) (runInit docs) hinit
  exact runTuples_rel entities _ _ hpk h.2.2

/-- Witness for the amended C3: the two-document corpus processed at
timestamps T and U yields the same tuple list. -/
theorem run_tuples_timestamp_invariant_use :
    runTuples fxEnt (process_directory fxSchema "m" "T" [fxDocA, fxDocB]).outputs =
      runTuples fxEnt (process_directory fxSchema "m" "U" [fxDocA, fxDocB]).outputs := by
  refine run_tuples_timestamp_invariant fxSchema "m" "T" "U" [fxDocA, fxDocB] fxEnt ?_
  intro t h
  unfold pkOfType fxEnt at h
  by_cases ht : t = "blog_post"
  · subst ht
    simp [List.lookup] at h
  · have hbf : (t == "blog_post") = false := by simpa using ht
    simp [List.lookup, hbf] at h

end Doctify
